import Mathlib

/-!
Verification development for the querulus query-compilation engine
(src/querulus/query_builder.py and the order-by parsing of src/querulus/main.py).

The Python code is shallowly embedded: builder state is an explicit record,
filter values are a small scalar-or-flat-list datatype (the only shapes the
HTTP layer ever passes in), the bind-parameter dictionary is an
insertion-ordered association list with Python-dict overwrite semantics, and
every SQL string is assembled with exactly the text fragments of the source.
-/

namespace Querulus

/-- Scalar filter / parameter values (strings, ints, bools as sent by the HTTP layer). -/
inductive Scalar where
  | str (s : String)
  | int (n : Int)
  | bool (b : Bool)
deriving DecidableEq

/-- A filter value: a scalar, or a flat list of scalars (rendered as SQL IN). -/
inductive Value where
  | scalar (v : Scalar)
  | vlist (xs : List Scalar)
deriving DecidableEq

/-- The shape of a value: none for a scalar, the length for a list.
The generated SQL text depends on a value only through its shape. -/
def vshape : Value → Option Nat
  | .scalar _ => none
  | .vlist xs => some xs.length

/-- The bind-parameter dictionary, insertion ordered like a Python dict. -/
abbrev Params : Type := List (String × Scalar)

/-- Python dict assignment: overwrite in place when the key exists, else append. -/
def dictInsert : Params → String → Scalar → Params
  | [], k, v => [(k, v)]
  | (k0, v0) :: rest, k, v =>
    if k0 = k then (k0, v) :: rest else (k0, v0) :: dictInsert rest k v

/-- The parts of the per-organism configuration the query builder reads
(schema earliestReleaseDate policy, backend dataUseTerms policy, metadata field names). -/
structure OrganismConfig where
  earliestReleaseDateEnabled : Bool
  earliestReleaseDateExternalFields : List String
  dataUseTermsEnabled : Bool
  dataUseTermsOpenUrl : String
  dataUseTermsRestrictedUrl : String
  metadataFieldNames : List String
deriving DecidableEq

/-- The QueryBuilder state: organism, organism config, filters (insertion
ordered, keys unique as in a Python dict), group-by fields and order-by fields. -/
structure Builder where
  organism : String
  organism_config : Option OrganismConfig
  filters : List (String × Value)
  group_by_fields : List String
  order_by_fields : List String

/-- FieldDefinition of query_builder.py. Expression factories are functions of
the builder; no registered definition uses a callable for order_base or
order_alias, so those are plain optional fragment lists. -/
structure FieldDefinition where
  name : String
  expression_factory : Builder → String
  requires_cte : Bool := false
  joins : List String := []
  order_base : Option (List String) := none
  order_alias : Option (List String) := none
  filter_factory : Option (Builder → String) := none
  group_factory : Option (Builder → String) := none
  order_dependencies : List String := []

def FieldDefinition.expr (d : FieldDefinition) (b : Builder) : String :=
  d.expression_factory b

def FieldDefinition.select_sql (d : FieldDefinition) (b : Builder) : String :=
  d.expr b ++ " AS \"" ++ d.name ++ "\""

def FieldDefinition.filter_sql (d : FieldDefinition) (b : Builder) : String :=
  (d.filter_factory.getD d.expression_factory) b

def FieldDefinition.group_sql (d : FieldDefinition) (b : Builder) : String :=
  (d.group_factory.getD d.expression_factory) b

def FieldDefinition.order_sql (d : FieldDefinition) (b : Builder) (use_alias : Bool) : List String :=
  match (if use_alias then d.order_alias else d.order_base) with
  | none => [if use_alias then "\"" ++ d.name ++ "\"" else d.expr b]
  | some l => l

def BASE_TABLE : String := "sequence_entries_view"

def JOIN_GROUPS : String := "groups"

def JOIN_DATA_USE_TERMS : String := "data_use_terms"

/-- The JOIN_SQL table of query_builder.py. -/
def joinClauseSql (name : String) : String :=
  if name = JOIN_GROUPS then
    "LEFT JOIN groups_table ON sequence_entries_view.group_id = groups_table.group_id"
  else if name = JOIN_DATA_USE_TERMS then
    "LEFT JOIN data_use_terms_table ON sequence_entries_view.accession = data_use_terms_table.accession"
  else ""

/-- The single-quote character, written by code point to keep it out of the source text. -/
def qChar : Char := Char.ofNat 39

/-- Model of the Python str.replace of a single quote by two single quotes,
character by character. -/
def escChars : List Char → List Char
  | [] => []
  | c :: rest =>
    if c = qChar then qChar :: qChar :: escChars rest else c :: escChars rest

def escapeQuotes (s : String) : String := String.mk (escChars s.data)

/-- A quote character as a one-character string. -/
def quoteStr : String := String.mk [qChar]

/-- The generic metadata-JSON field definition (the memoization cache is
modelled separately; the cached value is a pure function of the name). -/
def metadataFieldDefinition (field : String) : FieldDefinition :=
  { name := field
    expression_factory := fun _ =>
      "joint_metadata -> " ++ quoteStr ++ "metadata" ++ quoteStr ++ " ->> "
        ++ quoteStr ++ escapeQuotes field ++ quoteStr }

/-- QueryBuilder._earliest_release_timestamp_expr. -/
def earliestReleaseTimestampExpr (b : Builder) : String :=
  match b.organism_config with
  | none => "released_at"
  | some cfg =>
    if cfg.earliestReleaseDateEnabled = false then "released_at"
    else
      let parts := "released_at" :: cfg.earliestReleaseDateExternalFields.map (fun field =>
        "(joint_metadata -> " ++ quoteStr ++ "metadata" ++ quoteStr ++ " ->> "
          ++ quoteStr ++ escapeQuotes field ++ quoteStr ++ ")::timestamp")
      let least_expr := "LEAST(" ++ String.intercalate ", " parts ++ ")"
      let window_min :=
        "MIN(" ++ least_expr ++ ") OVER (PARTITION BY " ++ BASE_TABLE
          ++ ".accession ORDER BY version ROWS BETWEEN UNBOUNDED PRECEDING AND CURRENT ROW)"
      "LEAST(" ++ least_expr ++ ", " ++ window_min ++ ")"

/-- QueryBuilder._version_status_expression. -/
def versionStatusExpression : String :=
  "CASE\n    WHEN version = MAX(version) OVER (PARTITION BY " ++ BASE_TABLE
    ++ ".accession) THEN 'LATEST_VERSION'\n    WHEN EXISTS (\n        SELECT 1 FROM sequence_entries_view sev2\n        WHERE sev2.accession = sequence_entries_view.accession\n          AND sev2.version > sequence_entries_view.version\n          AND sev2.is_revocation = true\n          AND sev2.organism = :organism\n          AND sev2.released_at IS NOT NULL\n    ) THEN 'REVOKED'\n    ELSE 'REVISED'\nEND"

/-- QueryBuilder._data_use_terms_expr. -/
def dataUseTermsExpr (b : Builder) : String :=
  match b.organism_config with
  | none => "'OPEN'"
  | some cfg =>
    if cfg.dataUseTermsEnabled = false then "'OPEN'"
    else
      "CASE\n    WHEN data_use_terms_table.data_use_terms_type = 'RESTRICTED'\n         AND data_use_terms_table.restricted_until > NOW()\n    THEN 'RESTRICTED'\n    ELSE 'OPEN'\nEND"

/-- QueryBuilder._data_use_terms_restricted_until_expr. -/
def dataUseTermsRestrictedUntilExpr (b : Builder) : String :=
  match b.organism_config with
  | none => "NULL"
  | some cfg =>
    if cfg.dataUseTermsEnabled = false then "NULL"
    else
      "CASE\n    WHEN data_use_terms_table.data_use_terms_type = 'RESTRICTED'\n         AND data_use_terms_table.restricted_until > NOW()\n    THEN TO_CHAR(data_use_terms_table.restricted_until, 'YYYY-MM-DD')\n    ELSE NULL\nEND"

/-- QueryBuilder._data_use_terms_url_expr. -/
def dataUseTermsUrlExpr (b : Builder) : String :=
  match b.organism_config with
  | none => "NULL"
  | some cfg =>
    if cfg.dataUseTermsEnabled = false then "NULL"
    else
      "CASE\n    WHEN data_use_terms_table.data_use_terms_type = 'RESTRICTED'\n         AND data_use_terms_table.restricted_until > NOW()\n    THEN '" ++ cfg.dataUseTermsRestrictedUrl ++ "'\n    ELSE '" ++ cfg.dataUseTermsOpenUrl ++ "'\nEND"

/-- The static FIELD_DEFINITIONS registry, as an insertion-ordered association list. -/
def FIELD_DEFINITIONS : List (String × FieldDefinition) :=
  [ ("accession",
      { name := "accession"
        expression_factory := fun _ => BASE_TABLE ++ ".accession"
        order_base := some [BASE_TABLE ++ ".accession"]
        order_alias := some ["\"accession\""] }),
    ("version",
      { name := "version"
        expression_factory := fun _ => "version"
        order_base := some ["version"]
        order_alias := some ["\"version\""] }),
    ("accessionVersion",
      { name := "accessionVersion"
        expression_factory := fun _ => BASE_TABLE ++ ".accession || '.' || " ++ BASE_TABLE ++ ".version"
        order_base := some [BASE_TABLE ++ ".accession", "version"]
        order_alias := some ["\"accession\"", "\"version\""]
        order_dependencies := ["accession", "version"] }),
    ("displayName",
      { name := "displayName"
        expression_factory := fun _ => BASE_TABLE ++ ".accession || '.' || " ++ BASE_TABLE ++ ".version"
        order_base := some [BASE_TABLE ++ ".accession", "version"]
        order_alias := some ["\"accession\"", "\"version\""]
        order_dependencies := ["accession", "version"] }),
    ("submittedDate",
      { name := "submittedDate"
        expression_factory := fun _ => "TO_CHAR(submitted_at, 'YYYY-MM-DD')" }),
    ("submittedAtTimestamp",
      { name := "submittedAtTimestamp"
        expression_factory := fun _ => "EXTRACT(EPOCH FROM submitted_at)::bigint" }),
    ("releasedDate",
      { name := "releasedDate"
        expression_factory := fun _ => "TO_CHAR(released_at, 'YYYY-MM-DD')" }),
    ("releasedAtTimestamp",
      { name := "releasedAtTimestamp"
        expression_factory := fun _ => "EXTRACT(EPOCH FROM released_at)::bigint" }),
    ("earliestReleaseDate",
      { name := "earliestReleaseDate"
        expression_factory := fun b => "TO_CHAR(" ++ earliestReleaseTimestampExpr b ++ ", 'YYYY-MM-DD')"
        requires_cte := true }),
    ("submissionId",
      { name := "submissionId"
        expression_factory := fun _ => "submission_id" }),
    ("submitter",
      { name := "submitter"
        expression_factory := fun _ => "submitter" }),
    ("groupId",
      { name := "groupId"
        expression_factory := fun _ => BASE_TABLE ++ ".group_id" }),
    ("groupName",
      { name := "groupName"
        expression_factory := fun _ => "groups_table.group_name"
        joins := [JOIN_GROUPS] }),
    ("isRevocation",
      { name := "isRevocation"
        expression_factory := fun _ => "is_revocation" }),
    ("versionComment",
      { name := "versionComment"
        expression_factory := fun _ => "version_comment" }),
    ("versionStatus",
      { name := "versionStatus"
        expression_factory := fun _ => versionStatusExpression
        requires_cte := true }),
    ("dataUseTerms",
      { name := "dataUseTerms"
        expression_factory := fun b => dataUseTermsExpr b
        joins := [JOIN_DATA_USE_TERMS] }),
    ("dataUseTermsRestrictedUntil",
      { name := "dataUseTermsRestrictedUntil"
        expression_factory := fun b => dataUseTermsRestrictedUntilExpr b
        joins := [JOIN_DATA_USE_TERMS] }),
    ("dataUseTermsUrl",
      { name := "dataUseTermsUrl"
        expression_factory := fun b => dataUseTermsUrlExpr b
        joins := [JOIN_DATA_USE_TERMS] }) ]

/-- QueryBuilder._field_definition: registry hit or the generic metadata lookup. -/
def fieldDefinition (field : String) : FieldDefinition :=
  (FIELD_DEFINITIONS.lookup field).getD (metadataFieldDefinition field)

/-- Character-list prefix test (used to reason about the emitted SQL text). -/
def chPre : List Char → List Char → Bool
  | [], _ => true
  | _ :: _, [] => false
  | a :: as, b :: bs => if a = b then chPre as bs else false

/-- String prefix test over the underlying character lists. -/
def hasPre (p s : String) : Bool := chPre p.data s.data

/-- Python str.endswith over the underlying character lists. -/
def strEndsWith (s sfx : String) : Bool := chPre sfx.data.reverse s.data.reverse

/-- Python negative slicing s[:-n]. -/
def strDropRight (s : String) (n : Nat) : String :=
  String.mk (s.data.take (s.data.length - n))

/-- QueryBuilder._resolve_filter_base: strip the From / To range suffix. -/
def resolveFilterBase (field : String) : String × Option String :=
  if strEndsWith field "From" then (strDropRight field 4, some ">=")
  else if strEndsWith field "To" then (strDropRight field 2, some "<=")
  else (field, none)

/-- QueryBuilder._filter_base_fields. -/
def filterBaseFields (filters : List (String × Value)) : List String :=
  filters.map (fun fv => (resolveFilterBase fv.1).1)

/-- QueryBuilder._order_dependency_fields. -/
def orderDependencyFields (order_by_fields : List String) : List String :=
  order_by_fields.foldl (fun acc field =>
    if field = "random" ∨ field = "count" then acc
    else acc ++ (field :: (fieldDefinition field).order_dependencies)) []

/-- QueryBuilder._requires_cte. -/
def requiresCte (fields : List String) : Bool :=
  fields.any (fun field => (fieldDefinition field).requires_cte)

/-- QueryBuilder._collect_join_requirements (set semantics: only membership is used). -/
def collectJoinRequirements (fields : List String) : List String :=
  fields.foldl (fun acc field => acc ++ (fieldDefinition field).joins) []

/-- QueryBuilder._build_join_sql: emit known joins once each, in canonical order. -/
def buildJoinSql (joins : List String) (indent : String) : String :=
  let clauses := ([JOIN_GROUPS, JOIN_DATA_USE_TERMS].filter (fun n => joins.contains n)).map
    (fun n => indent ++ joinClauseSql n)
  if clauses.isEmpty then "" else "\n" ++ String.intercalate "\n" clauses

/-- QueryBuilder._ordered_unique. -/
def orderedUnique (items : List String) : List String :=
  items.foldl (fun acc item => if acc.contains item then acc else acc ++ [item]) []

/-- The _PARAM_SANITIZER regex: any character outside a-z A-Z 0-9 _ becomes an underscore. -/
def sanitizeChar (c : Char) : Char :=
  if (Char.ofNat 97 ≤ c ∧ c ≤ Char.ofNat 122) ∨ (Char.ofNat 65 ≤ c ∧ c ≤ Char.ofNat 90)
      ∨ (Char.ofNat 48 ≤ c ∧ c ≤ Char.ofNat 57) ∨ c = Char.ofNat 95 then c
  else Char.ofNat 95

def paramSanitize (s : String) : String := String.mk (s.data.map sanitizeChar)

/-- The bind-parameter name stem for a filter field: filter_ plus the sanitized field name. -/
def filterParamStem (field : String) : String := "filter_" ++ paramSanitize field

/-- QueryBuilder._render_filter_condition: one named parameter for a scalar,
an IN list with one indexed parameter per element for a list. -/
def renderFilterCondition (expression : String) (value : Value) (operator : Option String)
    (params : Params) (param_stem : String) : String × Params :=
  match value with
  | .vlist items =>
    let names := (List.range items.length).map (fun idx => param_stem ++ "_" ++ toString idx)
    let params2 := (names.zip items).foldl (fun ps e => dictInsert ps e.1 e.2) params
    let placeholders := names.map (fun n => ":" ++ n)
    (expression ++ " IN (" ++ String.intercalate ", " placeholders ++ ")", params2)
  | .scalar v =>
    (expression ++ " " ++ operator.getD "=" ++ " :" ++ param_stem,
     dictInsert params param_stem v)

/-- QueryBuilder._append_filter_clause, returning the rendered clause and the
extended parameter map. -/
def appendFilterClauseF (b : Builder) (use_alias : Bool) (field : String) (value : Value)
    (params : Params) : String × Params :=
  let base_field := (resolveFilterBase field).1
  let operator := (resolveFilterBase field).2
  let expression :=
    if use_alias then "\"" ++ base_field ++ "\""
    else (fieldDefinition base_field).filter_sql b
  renderFilterCondition expression value operator params (filterParamStem field)

/-- Fold the filter clauses of a filter list in order (the simple query paths). -/
def renderWhereClauses (b : Builder) (use_alias : Bool) (fs : List (String × Value))
    (params : Params) : List String × Params :=
  fs.foldl (fun acc fv =>
    let r := appendFilterClauseF b use_alias fv.1 fv.2 acc.2
    (acc.1 ++ [r.1], r.2)) ([], params)

/-- Whether a filter (by its base field) must be re-applied outside the CTE. -/
def filterUsesCte (fv : String × Value) : Bool :=
  (fieldDefinition (resolveFilterBase fv.1).1).requires_cte

/-- The single pass of the staged builders over the filters: non-staging
filters go to the CTE WHERE (raw filter expression), staging filters to the
outer WHERE (double-quoted alias); parameters are bound in filter order. -/
def splitFilterClauses (b : Builder) (params : Params) :
    List String × List String × Params :=
  b.filters.foldl (fun acc fv =>
    if filterUsesCte fv then
      let r := appendFilterClauseF b true fv.1 fv.2 acc.2.2
      (acc.1, acc.2.1 ++ [r.1], r.2)
    else
      let r := appendFilterClauseF b false fv.1 fv.2 acc.2.2
      (acc.1 ++ [r.1], acc.2.1, r.2)) ([], [], params)

/-- QueryBuilder.build_order_by_clause. -/
def buildOrderByClause (b : Builder) (context : String) : String :=
  if b.order_by_fields.isEmpty then
    (if context = "aggregated" then "count DESC" else "\"accession\"")
  else
    String.intercalate ", " (b.order_by_fields.foldl (fun acc field =>
      if field = "random" then acc ++ ["RANDOM()"]
      else if field = "count" ∧ context = "aggregated" then acc ++ ["count"]
      else acc ++ ((fieldDefinition field).order_sql b true)) [])

/-- Render each clause as a new AND line with the given leader text. -/
def andClauses (leader : String) (clauses : List String) : String :=
  String.join (clauses.map (fun c => leader ++ c))

def limitSql : Option Int → String
  | none => ""
  | some l => "\nLIMIT " ++ toString l

/-- OFFSET emission of the aggregated / details builders (only when positive). -/
def offsetSqlPos (o : Int) : String :=
  if 0 < o then "\nOFFSET " ++ toString o else ""

/-- OFFSET emission of the sequence builder (Python truthiness: any nonzero value). -/
def offsetSqlNonzero (o : Int) : String :=
  if o ≠ 0 then "\nOFFSET " ++ toString o else ""

/-- The candidate field set of build_aggregated_query that drives the staging decision. -/
def aggCteCandidateFields (b : Builder) : List String :=
  b.group_by_fields ++ filterBaseFields b.filters ++ orderDependencyFields b.order_by_fields

/-- QueryBuilder._build_aggregated_query_simple. -/
def buildAggregatedQuerySimple (b : Builder) (params : Params) (limit : Option Int)
    (offset : Int) : String × Params :=
  let fields := b.group_by_fields
  let select_parts := fields.map (fun f => (fieldDefinition f).select_sql b) ++ ["COUNT(*) AS count"]
  let select_clause := String.intercalate ",\n        " select_parts
  let join_fields := fields ++ filterBaseFields b.filters ++ orderDependencyFields b.order_by_fields
  let wc := renderWhereClauses b false b.filters params
  let q := "SELECT\n        " ++ select_clause ++ "\nFROM " ++ BASE_TABLE
    ++ buildJoinSql (collectJoinRequirements join_fields) "    "
    ++ "\nWHERE organism = :organism\n  AND released_at IS NOT NULL"
    ++ andClauses "\n  AND " wc.1
    ++ "\nGROUP BY " ++ String.intercalate ", " (fields.map (fun f => (fieldDefinition f).group_sql b))
    ++ "\nORDER BY " ++ buildOrderByClause b "aggregated"
    ++ limitSql limit ++ offsetSqlPos offset
  (q, wc.2)

/-- QueryBuilder._build_aggregated_query_with_cte. -/
def buildAggregatedQueryWithCte (b : Builder) (params : Params) (limit : Option Int)
    (offset : Int) : String × Params :=
  let group_fields := b.group_by_fields
  let cte_fields := orderedUnique
    (group_fields ++ filterBaseFields b.filters ++ orderDependencyFields b.order_by_fields)
  let select_clause :=
    String.intercalate ",\n        " (cte_fields.map (fun f => (fieldDefinition f).select_sql b))
  let sp := splitFilterClauses b params
  let group_aliases := group_fields.map (fun f => "\"" ++ f ++ "\"")
  let q := "WITH computed_fields AS (\n    SELECT\n        " ++ select_clause
    ++ "\n    FROM " ++ BASE_TABLE
    ++ buildJoinSql (collectJoinRequirements cte_fields) "        "
    ++ "\n    WHERE organism = :organism\n      AND released_at IS NOT NULL"
    ++ andClauses "\n      AND " sp.1
    ++ "\n)\n"
    ++ "SELECT " ++ String.intercalate ", " (group_aliases ++ ["COUNT(*) AS count"])
    ++ "\nFROM computed_fields"
    ++ (if sp.2.1.isEmpty then "" else "\nWHERE 1=1" ++ andClauses "\n  AND " sp.2.1)
    ++ (if group_aliases.isEmpty then "" else
        "\nGROUP BY " ++ String.intercalate ", " group_aliases
          ++ "\nORDER BY " ++ buildOrderByClause b "aggregated"
          ++ limitSql limit ++ offsetSqlPos offset)
  (q, sp.2.2)

/-- QueryBuilder._build_aggregated_count. -/
def buildAggregatedCount (b : Builder) (params : Params) : String × Params :=
  let wc := renderWhereClauses b false b.filters params
  let q := "SELECT COUNT(*) AS count\nFROM " ++ BASE_TABLE
    ++ buildJoinSql (collectJoinRequirements (filterBaseFields b.filters)) "    "
    ++ "\nWHERE organism = :organism\n  AND released_at IS NOT NULL"
    ++ andClauses "\n  AND " wc.1
  (q, wc.2)

/-- QueryBuilder._build_aggregated_count_with_cte. -/
def buildAggregatedCountWithCte (b : Builder) (params : Params) : String × Params :=
  let bases := filterBaseFields b.filters
  let cte_fields := orderedUnique (if bases.isEmpty then ["accession"] else bases)
  let select_clause :=
    String.intercalate ",\n        " (cte_fields.map (fun f => (fieldDefinition f).select_sql b))
  let sp := splitFilterClauses b params
  let q := "WITH computed_fields AS (\n    SELECT\n        " ++ select_clause
    ++ "\n    FROM " ++ BASE_TABLE
    ++ buildJoinSql (collectJoinRequirements cte_fields) "        "
    ++ "\n    WHERE organism = :organism\n      AND released_at IS NOT NULL"
    ++ andClauses "\n      AND " sp.1
    ++ "\n)\n"
    ++ "SELECT COUNT(*) AS count\nFROM computed_fields"
    ++ (if sp.2.1.isEmpty then "" else "\nWHERE 1=1" ++ andClauses "\n  AND " sp.2.1)
  (q, sp.2.2)

/-- QueryBuilder.build_aggregated_query. -/
def buildAggregatedQuery (b : Builder) (limit : Option Int) (offset : Int) :
    String × Params :=
  let params : Params := [("organism", Scalar.str b.organism)]
  if b.group_by_fields.isEmpty then
    if requiresCte (aggCteCandidateFields b) then buildAggregatedCountWithCte b params
    else buildAggregatedCount b params
  else
    if requiresCte (aggCteCandidateFields b) then
      buildAggregatedQueryWithCte b params limit offset
    else buildAggregatedQuerySimple b params limit offset

/-- QueryBuilder._default_details_fields. -/
def defaultDetailsFields (b : Builder) : List String :=
  let fields := ["accession", "version", "accessionVersion", "displayName", "versionStatus",
    "submittedDate", "submittedAtTimestamp", "releasedDate", "releasedAtTimestamp",
    "earliestReleaseDate", "submissionId", "submitter", "groupId", "groupName",
    "isRevocation", "versionComment", "dataUseTerms", "dataUseTermsRestrictedUntil",
    "dataUseTermsUrl"]
  let fields := fields ++ (match b.organism_config with
    | none => []
    | some cfg => cfg.metadataFieldNames.filter (fun n => n.isEmpty = false))
  orderedUnique fields

/-- The effective selected-field list of build_details_query (Python
`selected_fields or default`, then de-duplicated). -/
def detailsEffectiveFields (b : Builder) (selected_fields : Option (List String)) :
    List String :=
  orderedUnique (match selected_fields with
    | some l => if l.isEmpty then defaultDetailsFields b else l
    | none => defaultDetailsFields b)

/-- The candidate field set of build_details_query without the always-added accession. -/
def detailsCteCandidateFields (b : Builder) (selected_fields : Option (List String)) :
    List String :=
  detailsEffectiveFields b selected_fields ++ filterBaseFields b.filters
    ++ orderDependencyFields b.order_by_fields

/-- QueryBuilder._build_details_query_with_cte. -/
def buildDetailsQueryWithCte (b : Builder) (params : Params) (fields : List String)
    (select_all : Bool) (limit : Option Int) (offset : Int) : String × Params :=
  let cte_fields := orderedUnique
    (fields ++ filterBaseFields b.filters ++ orderDependencyFields b.order_by_fields
      ++ ["accession"])
  let select_clause :=
    String.intercalate ",\n        " (cte_fields.map (fun f => (fieldDefinition f).select_sql b))
  let sp := splitFilterClauses b params
  let outer_select :=
    if select_all then "*"
    else String.intercalate ", " (fields.map (fun f => "\"" ++ f ++ "\""))
  let q := "WITH computed_fields AS (\n    SELECT\n        " ++ select_clause
    ++ "\n    FROM " ++ BASE_TABLE
    ++ buildJoinSql (collectJoinRequirements cte_fields) "        "
    ++ "\n    WHERE organism = :organism\n      AND released_at IS NOT NULL"
    ++ andClauses "\n      AND " sp.1
    ++ "\n)\n"
    ++ "SELECT " ++ outer_select ++ "\nFROM computed_fields"
    ++ (if sp.2.1.isEmpty then "" else "\nWHERE 1=1" ++ andClauses "\n  AND " sp.2.1)
    ++ "\nORDER BY " ++ buildOrderByClause b "details"
    ++ limitSql limit ++ offsetSqlPos offset
  (q, sp.2.2)

/-- QueryBuilder._build_details_query_simple. -/
def buildDetailsQuerySimple (b : Builder) (params : Params) (fields : List String)
    (limit : Option Int) (offset : Int) : String × Params :=
  let select_clause :=
    String.intercalate ",\n        " (fields.map (fun f => (fieldDefinition f).select_sql b))
  let join_fields := fields ++ filterBaseFields b.filters ++ orderDependencyFields b.order_by_fields
  let wc := renderWhereClauses b false b.filters params
  let q := "SELECT\n        " ++ select_clause ++ "\nFROM " ++ BASE_TABLE
    ++ buildJoinSql (collectJoinRequirements join_fields) "    "
    ++ "\nWHERE organism = :organism\n  AND released_at IS NOT NULL"
    ++ andClauses "\n  AND " wc.1
    ++ "\nORDER BY " ++ buildOrderByClause b "details"
    ++ limitSql limit ++ offsetSqlPos offset
  (q, wc.2)

/-- QueryBuilder.build_details_query. -/
def buildDetailsQuery (b : Builder) (selected_fields : Option (List String))
    (limit : Option Int) (offset : Int) : String × Params :=
  let params : Params := [("organism", Scalar.str b.organism)]
  let select_all := selected_fields.isNone
  let fields := detailsEffectiveFields b selected_fields
  if requiresCte (detailsCteCandidateFields b selected_fields ++ ["accession"]) then
    buildDetailsQueryWithCte b params fields select_all limit offset
  else
    buildDetailsQuerySimple b params fields limit offset

/-- The simple (non-staging) filters of the sequence builder, in filter order. -/
def seqSimpleFilters (b : Builder) : List (String × Value) :=
  b.filters.filter (fun fv => filterUsesCte fv = false)

/-- The staging filters of the sequence builder, in filter order. -/
def seqComputedFilters (b : Builder) : List (String × Value) :=
  b.filters.filter (fun fv => filterUsesCte fv)

/-- QueryBuilder._build_sequence_query. -/
def buildSequenceQueryCore (b : Builder) (segment_key segment_name : String)
    (limit : Option Int) (offset : Int) : String × Params :=
  let params : Params := [("organism", Scalar.str b.organism)]
  let json_path := "joint_metadata -> " ++ quoteStr ++ segment_key ++ quoteStr ++ " -> "
    ++ quoteStr ++ segment_name ++ quoteStr ++ " ->> " ++ quoteStr
    ++ "compressedSequence" ++ quoteStr
  let simple_filters := seqSimpleFilters b
  let computed_filters := seqComputedFilters b
  if computed_filters.isEmpty then
    let wc := renderWhereClauses b false simple_filters params
    let q := "SELECT\n        accession,\n        version,\n        " ++ json_path
      ++ " AS compressed_seq\nFROM " ++ BASE_TABLE
      ++ "\nWHERE organism = :organism\n  AND released_at IS NOT NULL\n  AND "
      ++ json_path ++ " IS NOT NULL"
      ++ andClauses "\n  AND " wc.1
      ++ "\nORDER BY \"accession\", \"version\""
      ++ limitSql limit ++ offsetSqlNonzero offset
    (q, wc.2)
  else
    let computed_field_names :=
      orderedUnique (computed_filters.map (fun fv => (resolveFilterBase fv.1).1))
    let select_field_names := orderedUnique (["accession", "version"] ++ computed_field_names)
    let join_fields := select_field_names
      ++ simple_filters.map (fun fv => (resolveFilterBase fv.1).1)
    let select_parts := select_field_names.map (fun f => (fieldDefinition f).select_sql b)
      ++ [json_path ++ " AS compressed_seq"]
    let cw := renderWhereClauses b false simple_filters params
    let ow := renderWhereClauses b true computed_filters cw.2
    let q := "WITH computed_sequences AS (\n    SELECT\n        "
      ++ String.intercalate ",\n        " select_parts
      ++ "\n    FROM " ++ BASE_TABLE
      ++ buildJoinSql (collectJoinRequirements join_fields) "        "
      ++ "\n    WHERE organism = :organism\n      AND released_at IS NOT NULL\n      AND "
      ++ json_path ++ " IS NOT NULL"
      ++ andClauses "\n      AND " cw.1
      ++ "\n)\n"
      ++ "SELECT \"accession\", \"version\", compressed_seq\nFROM computed_sequences"
      ++ "\nWHERE 1=1" ++ andClauses "\n  AND " ow.1
      ++ "\nORDER BY \"accession\", \"version\""
      ++ limitSql limit ++ offsetSqlNonzero offset
    (q, ow.2)

/-- QueryBuilder.build_sequences_query. -/
def buildSequencesQuery (b : Builder) (segment_name : String) (limit : Option Int)
    (offset : Int) : String × Params :=
  buildSequenceQueryCore b "alignedNucleotideSequences" segment_name limit offset

/-- QueryBuilder.build_unaligned_sequences_query. -/
def buildUnalignedSequencesQuery (b : Builder) (segment_name : String) (limit : Option Int)
    (offset : Int) : String × Params :=
  buildSequenceQueryCore b "unalignedNucleotideSequences" segment_name limit offset

/-- An element of a POST body orderBy array: an object with field and optional
type, or a plain string. -/
inductive OrderByItem where
  | obj (field : String) (typ : Option String)
  | strItem (s : String)
deriving DecidableEq

/-- What the POST endpoints append to order_by_fields: a plain field name, or a
(field, direction) tuple. -/
inductive OrderEntry where
  | name (s : String)
  | pair (f dir : String)
deriving DecidableEq

/-- The orderBy parsing of the POST endpoints in main.py: an object becomes a
(field, direction) tuple with direction defaulting to ascending; a string
becomes a plain field name. -/
def parseOrderBy (items : List OrderByItem) : List OrderEntry :=
  items.foldl (fun acc item =>
    match item with
    | .obj field typ => acc ++ [OrderEntry.pair field (typ.getD "ascending")]
    | .strItem s => acc ++ [OrderEntry.name s]) []

/-- The runtime failure raised when _metadata_field_definition receives a tuple. -/
def attributeErrorMsg : String :=
  "AttributeError: tuple object has no attribute replace"

/-- QueryBuilder._field_definition on an order_by_fields entry as stored by the
POST endpoints: a plain name resolves normally; a (field, direction) tuple
misses both dictionaries and crashes in _metadata_field_definition on
field.replace. -/
def fieldDefinitionE : OrderEntry → Except String FieldDefinition
  | .name s => .ok (fieldDefinition s)
  | .pair _ _ => .error attributeErrorMsg

/-- QueryBuilder._order_dependency_fields over POST-parsed order entries. -/
def orderDependencyFieldsE : List OrderEntry → Except String (List String)
  | [] => .ok []
  | .name s :: rest =>
    if s = "random" ∨ s = "count" then orderDependencyFieldsE rest
    else do
      let tl ← orderDependencyFieldsE rest
      pure ((s :: (fieldDefinition s).order_dependencies) ++ tl)
  | .pair _ _ :: _ => .error attributeErrorMsg

/-- The per-entry fragments of build_order_by_clause over POST-parsed entries. -/
def orderFragmentsE (b : Builder) (context : String) : List OrderEntry → Except String (List String)
  | [] => .ok []
  | .name s :: rest =>
    if s = "random" then (orderFragmentsE b context rest).map (fun tl => "RANDOM()" :: tl)
    else if s = "count" ∧ context = "aggregated" then
      (orderFragmentsE b context rest).map (fun tl => "count" :: tl)
    else (orderFragmentsE b context rest).map
      (fun tl => (fieldDefinition s).order_sql b true ++ tl)
  | .pair _ _ :: _ => .error attributeErrorMsg

/-- QueryBuilder.build_order_by_clause over POST-parsed order entries. -/
def buildOrderByClauseE (b : Builder) (entries : List OrderEntry) (context : String) :
    Except String String :=
  if entries.isEmpty then
    .ok (if context = "aggregated" then "count DESC" else "\"accession\"")
  else (orderFragmentsE b context entries).map (String.intercalate ", ")

/-- The _METADATA_FIELD_CACHE, the only state shared between compilations. -/
abbrev MetaCache : Type := List (String × FieldDefinition)

/-- A cache state reachable by the program: every entry is the pure definition
of its key. -/
def validCache (c : MetaCache) : Prop :=
  ∀ p ∈ c, p.2 = metadataFieldDefinition p.1

/-- The cache-aware _metadata_field_definition: return the cached definition
when present, otherwise construct and append it. -/
def metadataFieldDefinitionC (cache : MetaCache) (field : String) :
    FieldDefinition × MetaCache :=
  match cache.lookup field with
  | some d => (d, cache)
  | none => (metadataFieldDefinition field, cache ++ [(field, metadataFieldDefinition field)])

/-- A scanner for a SQL single-quoted string literal body (after the opening
quote): two quotes decode to one quote, a lone quote terminates the literal.
Returns the decoded content and the remaining input. -/
def scanLit : List Char → Option (List Char × List Char)
  | [] => none
  | c :: rest =>
    if c = qChar then
      match rest with
      | [] => some ([], [])
      | c2 :: rest2 =>
        if c2 = qChar then
          match scanLit rest2 with
          | none => none
          | some r => some (qChar :: r.1, r.2)
        else some ([], rest)
    else
      match scanLit rest with
      | none => none
      | some r => some (c :: r.1, r.2)

/-- The bind-parameter names one filter generates. -/
def filterParamNames (field : String) (value : Value) : List String :=
  match value with
  | .vlist xs => (List.range xs.length).map (fun i => filterParamStem field ++ "_" ++ toString i)
  | .scalar _ => [filterParamStem field]

/-- The bind-parameter entries one filter generates, in binding order. -/
def filterParamEntries (field : String) (value : Value) : Params :=
  match value with
  | .vlist xs =>
    ((List.range xs.length).map (fun i => filterParamStem field ++ "_" ++ toString i)).zip xs
  | .scalar v => [(filterParamStem field, v)]

/-- All bind-parameter entries of a filter list, in binding order. -/
def allFilterParamEntries (fs : List (String × Value)) : Params :=
  fs.foldr (fun fv acc => filterParamEntries fv.1 fv.2 ++ acc) []

/-- All bind-parameter names of a filter list. -/
def allFilterParamNames (fs : List (String × Value)) : List String :=
  fs.foldr (fun fv acc => filterParamNames fv.1 fv.2 ++ acc) []

/-- Two filter lists with the same fields in the same order and pointwise
equal value shapes (the only data the SQL text can depend on). -/
def filtersShapeEq (fs fs' : List (String × Value)) : Prop :=
  List.Forall₂ (fun a b => a.1 = b.1 ∧ vshape a.2 = vshape b.2) fs fs'

/-- The rendered text of one filter clause (parameter-map independent). -/
def filterClauseText (b : Builder) (use_alias : Bool) (field : String) (value : Value) :
    String :=
  (appendFilterClauseF b use_alias field value []).1


/-- The parameter-map effect of one filter (Python dict assignment per bound name). -/
def paramsAfterFilter (field : String) (value : Value) (params : Params) : Params :=
  match value with
  | .vlist xs =>
    (((List.range xs.length).map (fun i => filterParamStem field ++ "_" ++ toString i)).zip
      xs).foldl (fun ps e => dictInsert ps e.1 e.2) params
  | .scalar v => dictInsert params (filterParamStem field) v

/-- The parameter-map effect of a filter list, in filter order. -/
def paramsAfterAll (fs : List (String × Value)) (params : Params) : Params :=
  fs.foldl (fun ps fv => paramsAfterFilter fv.1 fv.2 ps) params

end Querulus


namespace Querulus

theorem chPre_head {a b : Char} {as bs : List Char} (h : chPre (a :: as) (b :: bs) = true) :
    a = b := by
  by_contra hne
  simp [chPre, hne] at h

theorem chPre_append (p : List Char) : ∀ (a c : List Char), chPre p a = true →
    chPre p (a ++ c) = true := by
  induction p with
  | nil => intro a c _; simp [chPre]
  | cons x xs ih =>
    intro a c h
    cases a with
    | nil => simp [chPre] at h
    | cons y ys =>
      have hx : x = y := chPre_head h
      subst hx
      simp only [chPre, if_pos rfl] at h
      simp only [List.cons_append, chPre, if_pos rfl]
      exact ih ys c h

theorem hasPre_append (p a c : String) (h : hasPre p a = true) : hasPre p (a ++ c) = true := by
  unfold hasPre at *
  rw [String.data_append]
  exact chPre_append _ _ _ h

theorem hasPre_WITH_false_of_SELECT (s : String) (h : hasPre "SELECT" s = true) :
    hasPre "WITH" s = false := by
  unfold hasPre at h ⊢
  cases hd : s.data with
  | nil => rw [hd] at h; simp [chPre] at h
  | cons c t =>
    rw [hd] at h
    have h' : chPre ('S' :: "ELECT".data) (c :: t) = true := h
    have hc : ('S' : Char) = c := chPre_head h'
    rw [← hc]
    show (if ('W' : Char) = 'S' then chPre "ITH".data t else false) = false
    rw [if_neg (by decide)]

theorem buildAggedSimple_not_with (b : Builder) (params : Params) (limit : Option Int)
    (offset : Int) :
    hasPre "WITH" (buildAggregatedQuerySimple b params limit offset).1 = false := by
  apply hasPre_WITH_false_of_SELECT
  unfold buildAggregatedQuerySimple
  dsimp only
  repeat apply hasPre_append
  decide

theorem buildAggedCte_with (b : Builder) (params : Params) (limit : Option Int)
    (offset : Int) :
    hasPre "WITH" (buildAggregatedQueryWithCte b params limit offset).1 = true := by
  unfold buildAggregatedQueryWithCte
  dsimp only
  repeat apply hasPre_append
  decide

theorem requires_cte_iff_field (f : String) :
    (fieldDefinition f).requires_cte = true ↔ f = "versionStatus" ∨ f = "earliestReleaseDate" := by
  unfold fieldDefinition FIELD_DEFINITIONS
  simp only [List.lookup]
  repeat' split
  all_goals simp_all [metadataFieldDefinition]

end Querulus

namespace Querulus

theorem buildAggedCount_not_with (b : Builder) (params : Params) :
    hasPre "WITH" (buildAggregatedCount b params).1 = false := by
  apply hasPre_WITH_false_of_SELECT
  unfold buildAggregatedCount
  dsimp only
  repeat apply hasPre_append
  decide

theorem buildAggedCountCte_with (b : Builder) (params : Params) :
    hasPre "WITH" (buildAggregatedCountWithCte b params).1 = true := by
  unfold buildAggregatedCountWithCte
  dsimp only
  repeat apply hasPre_append
  decide

theorem buildDetailsSimple_not_with (b : Builder) (params : Params) (fields : List String)
    (limit : Option Int) (offset : Int) :
    hasPre "WITH" (buildDetailsQuerySimple b params fields limit offset).1 = false := by
  apply hasPre_WITH_false_of_SELECT
  unfold buildDetailsQuerySimple
  dsimp only
  repeat apply hasPre_append
  decide

theorem buildDetailsCte_with (b : Builder) (params : Params) (fields : List String)
    (select_all : Bool) (limit : Option Int) (offset : Int) :
    hasPre "WITH" (buildDetailsQueryWithCte b params fields select_all limit offset).1 = true := by
  unfold buildDetailsQueryWithCte
  dsimp only
  repeat apply hasPre_append
  decide

theorem agg_with_iff (b : Builder) (limit : Option Int) (offset : Int) :
    hasPre "WITH" (buildAggregatedQuery b limit offset).1 =
      requiresCte (aggCteCandidateFields b) := by
  unfold buildAggregatedQuery
  dsimp only
  by_cases hg : b.group_by_fields.isEmpty <;>
    by_cases hc : requiresCte (aggCteCandidateFields b) <;>
      simp [hg, hc, buildAggedCount_not_with, buildAggedCountCte_with,
        buildAggedSimple_not_with, buildAggedCte_with]

theorem details_with_iff (b : Builder) (sf : Option (List String)) (limit : Option Int)
    (offset : Int) :
    hasPre "WITH" (buildDetailsQuery b sf limit offset).1 =
      requiresCte (detailsCteCandidateFields b sf ++ ["accession"]) := by
  unfold buildDetailsQuery
  dsimp only
  by_cases hc : requiresCte (detailsCteCandidateFields b sf ++ ["accession"]) <;>
    simp [hc, buildDetailsSimple_not_with, buildDetailsCte_with]

theorem requiresCte_iff_mem (l : List String) :
    requiresCte l = true ↔ "versionStatus" ∈ l ∨ "earliestReleaseDate" ∈ l := by
  unfold requiresCte
  rw [List.any_eq_true]
  constructor
  · rintro ⟨f, hf, hcte⟩
    rcases (requires_cte_iff_field f).1 hcte with h | h
    · exact Or.inl (h ▸ hf)
    · exact Or.inr (h ▸ hf)
  · rintro (h | h)
    · exact ⟨_, h, by rfl⟩
    · exact ⟨_, h, by rfl⟩

theorem requiresCte_append_accession (l : List String) :
    requiresCte (l ++ ["accession"]) = requiresCte l := by
  unfold requiresCte
  rw [List.any_append]
  simp [show (fieldDefinition "accession").requires_cte = false from rfl]

end Querulus

namespace Querulus

theorem appendFilterClauseF_fst (b : Builder) (ua : Bool) (f : String) (v : Value)
    (params : Params) :
    (appendFilterClauseF b ua f v params).1 = filterClauseText b ua f v := by
  unfold appendFilterClauseF filterClauseText renderFilterCondition
  cases v <;> rfl

theorem appendFilterClauseF_snd (b : Builder) (ua : Bool) (f : String) (v : Value)
    (params : Params) :
    (appendFilterClauseF b ua f v params).2 = paramsAfterFilter f v params := by
  unfold appendFilterClauseF renderFilterCondition paramsAfterFilter filterParamStem
  cases v <;> rfl

theorem renderWhereClauses_go (b : Builder) (ua : Bool) (fs : List (String × Value)) :
    ∀ (acc : List String) (params : Params),
      fs.foldl (fun acc fv =>
        let r := appendFilterClauseF b ua fv.1 fv.2 acc.2
        (acc.1 ++ [r.1], r.2)) (acc, params) =
      (acc ++ fs.map (fun fv => filterClauseText b ua fv.1 fv.2), paramsAfterAll fs params) := by
  induction fs with
  | nil => intro acc params; simp [paramsAfterAll]
  | cons fv rest ih =>
    intro acc params
    rw [List.foldl_cons]
    dsimp only
    rw [ih, appendFilterClauseF_fst, appendFilterClauseF_snd]
    simp [paramsAfterAll, List.append_assoc]

theorem renderWhereClauses_spec (b : Builder) (ua : Bool) (fs : List (String × Value))
    (params : Params) :
    renderWhereClauses b ua fs params =
      (fs.map (fun fv => filterClauseText b ua fv.1 fv.2), paramsAfterAll fs params) := by
  unfold renderWhereClauses
  simpa using renderWhereClauses_go b ua fs [] params

theorem splitFilterClauses_go (b : Builder) (fs : List (String × Value)) :
    ∀ (cte outer : List String) (params : Params),
      fs.foldl (fun acc fv =>
        if filterUsesCte fv then
          let r := appendFilterClauseF b true fv.1 fv.2 acc.2.2
          (acc.1, acc.2.1 ++ [r.1], r.2)
        else
          let r := appendFilterClauseF b false fv.1 fv.2 acc.2.2
          (acc.1 ++ [r.1], acc.2.1, r.2)) (cte, outer, params) =
      (cte ++ (fs.filter (fun fv => filterUsesCte fv = false)).map
          (fun fv => filterClauseText b false fv.1 fv.2),
       outer ++ (fs.filter (fun fv => filterUsesCte fv)).map
          (fun fv => filterClauseText b true fv.1 fv.2),
       paramsAfterAll fs params) := by
  induction fs with
  | nil => intro cte outer params; simp [paramsAfterAll]
  | cons fv rest ih =>
    intro cte outer params
    rw [List.foldl_cons]
    by_cases hc : filterUsesCte fv
    · rw [if_pos hc]
      dsimp only
      rw [ih, appendFilterClauseF_fst, appendFilterClauseF_snd]
      simp [paramsAfterAll, hc, List.append_assoc]
    · rw [if_neg hc]
      dsimp only
      rw [ih, appendFilterClauseF_fst, appendFilterClauseF_snd]
      simp [paramsAfterAll, hc, List.append_assoc]

theorem splitFilterClauses_spec (b : Builder) (params : Params) :
    splitFilterClauses b params =
      ((b.filters.filter (fun fv => filterUsesCte fv = false)).map
          (fun fv => filterClauseText b false fv.1 fv.2),
       (b.filters.filter (fun fv => filterUsesCte fv)).map
          (fun fv => filterClauseText b true fv.1 fv.2),
       paramsAfterAll b.filters params) := by
  unfold splitFilterClauses
  simpa using splitFilterClauses_go b b.filters [] [] params

theorem scanLit_escChars (l : List Char) :
    scanLit (escChars l ++ [qChar]) = some (l, []) := by
  induction l with
  | nil => simp [escChars, scanLit]
  | cons c t ih =>
    by_cases hc : c = qChar
    · subst hc
      rw [show escChars (qChar :: t) = qChar :: qChar :: escChars t from by simp [escChars]]
      rw [List.cons_append, List.cons_append, scanLit.eq_def]
      simp [ih]
    · rw [show escChars (c :: t) = c :: escChars t from by simp [escChars, hc]]
      rw [List.cons_append, scanLit.eq_def]
      simp [hc, ih]

theorem lookup_mem {α β : Type} [BEq α] [LawfulBEq α] {k : α} {v : β} :
    ∀ (l : List (α × β)), l.lookup k = some v → (k, v) ∈ l := by
  intro l
  induction l with
  | nil => intro h; simp [List.lookup] at h
  | cons p rest ih =>
    intro h
    obtain ⟨k0, v0⟩ := p
    cases hbeq : k == k0
    · simp only [List.lookup, hbeq] at h
      exact List.mem_cons_of_mem _ (ih h)
    · simp only [List.lookup, hbeq] at h
      have hk : k = k0 := by simpa using hbeq
      subst hk
      simp only [Option.some.injEq] at h
      simp [h]

theorem lookup_append_of_none {α β : Type} [BEq α] {k : α} :
    ∀ (l₁ l₂ : List (α × β)), l₁.lookup k = none → (l₁ ++ l₂).lookup k = l₂.lookup k := by
  intro l₁
  induction l₁ with
  | nil => intro l₂ _; simp
  | cons p rest ih =>
    intro l₂ h
    obtain ⟨k0, v0⟩ := p
    cases hbeq : k == k0
    · simp only [List.lookup, hbeq] at h
      rw [List.cons_append]
      simp only [List.lookup, hbeq]
      exact ih l₂ h
    · simp [List.lookup, hbeq] at h

end Querulus

namespace Querulus

/-- Claim C1: the aggregated and details builders emit SQL beginning with a WITH
CTE clause exactly when the candidate field set (grouped or selected fields, the
stripped base fields of every filter, and the order-by fields with their
declared dependencies) contains versionStatus or earliestReleaseDate, the two
definitions with requires_cte; otherwise the query begins with SELECT and
carries no CTE. -/
theorem claim1_with_iff (b : Builder) (limit : Option Int) (offset : Int)
    (sf : Option (List String)) :
    (hasPre "WITH" (buildAggregatedQuery b limit offset).1 = true ↔
      "versionStatus" ∈ aggCteCandidateFields b ∨
        "earliestReleaseDate" ∈ aggCteCandidateFields b)
  ∧ (hasPre "WITH" (buildDetailsQuery b sf limit offset).1 = true ↔
      "versionStatus" ∈ detailsCteCandidateFields b sf ∨
        "earliestReleaseDate" ∈ detailsCteCandidateFields b sf) := by
  constructor
  · rw [agg_with_iff, requiresCte_iff_mem]
  · rw [details_with_iff, requiresCte_append_accession, requiresCte_iff_mem]

/-- Claim C7: field resolution is total; any name absent from the static
registry resolves to the metadata-JSON lookup definition projecting
joint_metadata -> metadata ->> name (quote-escaped), with no staging and no
joins, so an unregistered field is never a compilation error. -/
theorem claim7_total_metadata_fallback (f : String) (b : Builder)
    (h : FIELD_DEFINITIONS.lookup f = none) :
    fieldDefinition f = metadataFieldDefinition f
  ∧ (fieldDefinition f).expression_factory b =
      "joint_metadata -> " ++ quoteStr ++ "metadata" ++ quoteStr ++ " ->> "
        ++ quoteStr ++ escapeQuotes f ++ quoteStr
  ∧ (fieldDefinition f).requires_cte = false
  ∧ (fieldDefinition f).joins = [] := by
  unfold fieldDefinition
  rw [h]
  exact ⟨rfl, rfl, rfl, rfl⟩

/-- Witness for claim C7 at the unregistered field geoLocCountry. -/
theorem claim7_witness :
    FIELD_DEFINITIONS.lookup "geoLocCountry" = none
  ∧ (fieldDefinition "geoLocCountry").expression_factory ⟨"o", none, [], [], []⟩ =
      "joint_metadata -> " ++ quoteStr ++ "metadata" ++ quoteStr ++ " ->> "
        ++ quoteStr ++ escapeQuotes "geoLocCountry" ++ quoteStr :=
  ⟨rfl, (claim7_total_metadata_fallback "geoLocCountry" ⟨"o", none, [], [], []⟩ rfl).2.1⟩

/-- Claim C10: metadata-lookup projections and the earliestReleaseDate
external-field casts embed field names with every single quote doubled, and a
SQL string-literal scanner on the escaped name recovers exactly the original
name with nothing left over, so a quote in a field name can never terminate
the literal early. -/
theorem claim10_quote_escaping (f : String) (b : Builder) (cfg : OrganismConfig)
    (hcfg : b.organism_config = some cfg) (hon : cfg.earliestReleaseDateEnabled = true) :
    ((metadataFieldDefinition f).expression_factory b =
      "joint_metadata -> " ++ quoteStr ++ "metadata" ++ quoteStr ++ " ->> "
        ++ quoteStr ++ escapeQuotes f ++ quoteStr)
  ∧ (∀ g : String, scanLit ((escapeQuotes g).data ++ [qChar]) = some (g.data, []))
  ∧ earliestReleaseTimestampExpr b =
      (let parts := "released_at" :: cfg.earliestReleaseDateExternalFields.map (fun field =>
        "(joint_metadata -> " ++ quoteStr ++ "metadata" ++ quoteStr ++ " ->> "
          ++ quoteStr ++ escapeQuotes field ++ quoteStr ++ ")::timestamp")
       let least_expr := "LEAST(" ++ String.intercalate ", " parts ++ ")"
       let window_min := "MIN(" ++ least_expr ++ ") OVER (PARTITION BY " ++ BASE_TABLE
         ++ ".accession ORDER BY version ROWS BETWEEN UNBOUNDED PRECEDING AND CURRENT ROW)"
       "LEAST(" ++ least_expr ++ ", " ++ window_min ++ ")") := by
  refine ⟨rfl, fun g => ?_, ?_⟩
  · unfold escapeQuotes
    exact scanLit_escChars g.data
  · unfold earliestReleaseTimestampExpr
    rw [hcfg]
    simp [hon]

/-- Witness for claim C10 on a field name containing a single quote. -/
theorem claim10_witness :
    (⟨"o", some ⟨true, ["ncbiReleaseDate"], false, "", "", []⟩, [], [], []⟩ : Builder).organism_config
        = some ⟨true, ["ncbiReleaseDate"], false, "", "", []⟩
  ∧ scanLit ((escapeQuotes "isn't").data ++ [qChar]) = some ("isn't".data, []) := by
  refine ⟨rfl, ?_⟩
  exact (claim10_quote_escaping "x"
    ⟨"o", some ⟨true, ["ncbiReleaseDate"], false, "", "", []⟩, [], [], []⟩
    ⟨true, ["ncbiReleaseDate"], false, "", "", []⟩ rfl rfl).2.1 "isn't"

/-- Claim C9: compilation is deterministic and idempotent. The build methods
are pure functions of the builder and arguments, and the only cross-call state,
the metadata-definition cache, is value-transparent: on any valid cache the
lookup returns the pure definition, keeps the cache valid, and a repeated call
returns the same result without changing the cache. -/
theorem claim9_idempotent (c : MetaCache) (f : String) (h : validCache c) :
    (metadataFieldDefinitionC c f).1 = metadataFieldDefinition f
  ∧ validCache (metadataFieldDefinitionC c f).2
  ∧ metadataFieldDefinitionC (metadataFieldDefinitionC c f).2 f =
      ((metadataFieldDefinitionC c f).1, (metadataFieldDefinitionC c f).2)
  ∧ (∀ b limit offset sf seg,
      buildAggregatedQuery b limit offset = buildAggregatedQuery b limit offset
    ∧ buildDetailsQuery b sf limit offset = buildDetailsQuery b sf limit offset
    ∧ buildSequencesQuery b seg limit offset = buildSequencesQuery b seg limit offset) := by
  have hstep : (metadataFieldDefinitionC c f).1 = metadataFieldDefinition f
      ∧ validCache (metadataFieldDefinitionC c f).2
      ∧ metadataFieldDefinitionC (metadataFieldDefinitionC c f).2 f =
          ((metadataFieldDefinitionC c f).1, (metadataFieldDefinitionC c f).2) := by
    unfold metadataFieldDefinitionC
    cases hl : c.lookup f with
    | some d =>
      have hd : d = metadataFieldDefinition f := h (f, d) (lookup_mem c hl)
      refine ⟨hd, h, ?_⟩
      simp [hl]
    | none =>
      have hv : validCache (c ++ [(f, metadataFieldDefinition f)]) := by
        intro p hp
        rcases List.mem_append.1 hp with hp | hp
        · exact h p hp
        · simp at hp
          rw [hp]
      refine ⟨rfl, hv, ?_⟩
      rw [lookup_append_of_none c [(f, metadataFieldDefinition f)] hl]
      simp [List.lookup]
  exact ⟨hstep.1, hstep.2.1, hstep.2.2, fun b limit offset sf seg => ⟨rfl, rfl, rfl⟩⟩

/-- Witness for claim C9 starting from the empty cache. -/
theorem claim9_witness :
    validCache []
  ∧ (metadataFieldDefinitionC [] "geoLocCountry").1 = metadataFieldDefinition "geoLocCountry" := by
  have hv : validCache [] := by intro p hp; simp at hp
  exact ⟨hv, (claim9_idempotent [] "geoLocCountry" hv).1⟩

end Querulus

namespace Querulus

/-- Claim C4 (code bug): the POST endpoints parse a directive with field
geoLocCountry and type descending into a (field, direction) tuple, but the
query builder treats every order entry as a plain field name: resolving the
tuple reaches the metadata-definition constructor, whose replace call raises
AttributeError, so no descending ORDER BY is ever produced; plain string
entries still resolve normally. -/
theorem claim4_descending_crash :
    parseOrderBy [OrderByItem.obj "geoLocCountry" (some "descending")] =
      [OrderEntry.pair "geoLocCountry" "descending"]
  ∧ orderDependencyFieldsE [OrderEntry.pair "geoLocCountry" "descending"] =
      Except.error attributeErrorMsg
  ∧ (∀ (b : Builder) (context : String),
       buildOrderByClauseE b [OrderEntry.pair "geoLocCountry" "descending"] context =
         Except.error attributeErrorMsg)
  ∧ (∀ (s context : String),
       buildOrderByClauseE (Builder.mk "" none [] [] [s]) [OrderEntry.name s] context =
         Except.ok (buildOrderByClause (Builder.mk "" none [] [] [s]) context)) := by
  refine ⟨rfl, rfl, fun b context => rfl, fun s context => ?_⟩
  unfold buildOrderByClauseE buildOrderByClause orderFragmentsE
  by_cases hr : s = "random"
  · simp [hr, orderFragmentsE, Except.map, String.intercalate]
  · by_cases hcc : s = "count" ∧ context = "aggregated"
    · simp [hr, hcc, orderFragmentsE, Except.map, String.intercalate]
    · simp [hr, hcc, orderFragmentsE, Except.map, String.intercalate]

/-- Claim C8: the emitted join text depends only on which join names are
required (set semantics, so duplicates collapse), and it is exactly the groups
clause followed by the data-use-terms clause, each present at most once and
always in that canonical order. -/
theorem claim8_join_once_canonical :
    (∀ (joins joins2 : List String) (indent : String),
       (∀ n ∈ [JOIN_GROUPS, JOIN_DATA_USE_TERMS], joins.contains n = joins2.contains n) →
       buildJoinSql joins indent = buildJoinSql joins2 indent)
  ∧ (∀ (joins : List String) (indent : String),
       buildJoinSql joins indent =
         (if joins.contains JOIN_GROUPS then "\n" ++ indent ++ joinClauseSql JOIN_GROUPS
          else "")
         ++ (if joins.contains JOIN_DATA_USE_TERMS then
               "\n" ++ indent ++ joinClauseSql JOIN_DATA_USE_TERMS
             else "")) := by
  have hcanon : ∀ (joins : List String) (indent : String),
      buildJoinSql joins indent =
        (if joins.contains JOIN_GROUPS then "\n" ++ indent ++ joinClauseSql JOIN_GROUPS
         else "")
        ++ (if joins.contains JOIN_DATA_USE_TERMS then
              "\n" ++ indent ++ joinClauseSql JOIN_DATA_USE_TERMS
            else "") := by
    intro joins indent
    unfold buildJoinSql
    by_cases hg : JOIN_GROUPS ∈ joins
    · by_cases hd : JOIN_DATA_USE_TERMS ∈ joins
      · apply String.ext
        simp [hg, hd, String.intercalate, String.intercalate.go, List.append_assoc]
      · apply String.ext
        simp [hg, hd, String.intercalate, String.intercalate.go, List.append_assoc]
    · by_cases hd : JOIN_DATA_USE_TERMS ∈ joins
      · apply String.ext
        simp [hg, hd, String.intercalate, String.intercalate.go, List.append_assoc]
      · apply String.ext
        simp [hg, hd, String.intercalate, String.intercalate.go, List.append_assoc]
  exact ⟨fun joins joins2 indent h => by
    rw [hcanon joins indent, hcanon joins2 indent,
      h JOIN_GROUPS (by simp), h JOIN_DATA_USE_TERMS (by simp)], hcanon⟩

/-- Witness for claim C8: duplicated join requirements emit identical SQL. -/
theorem claim8_witness :
    (∀ n ∈ [JOIN_GROUPS, JOIN_DATA_USE_TERMS],
       (["groups", "groups", "data_use_terms"] : List String).contains n =
         (["groups", "data_use_terms"] : List String).contains n)
  ∧ buildJoinSql ["groups", "groups", "data_use_terms"] "    " =
      buildJoinSql ["groups", "data_use_terms"] "    " :=
  ⟨by decide, claim8_join_once_canonical.1 _ _ _ (by decide)⟩

end Querulus

namespace Querulus

theorem dictInsert_fresh (m : Params) (k : String) (v : Scalar)
    (h : k ∉ m.map Prod.fst) : dictInsert m k v = m ++ [(k, v)] := by
  induction m with
  | nil => rfl
  | cons p rest ih =>
    obtain ⟨k0, v0⟩ := p
    simp only [List.map_cons, List.mem_cons] at h
    push_neg at h
    unfold dictInsert
    rw [if_neg (Ne.symm h.1), ih h.2]
    simp

theorem foldl_dictInsert_append (entries : Params) : ∀ (params : Params),
    (∀ e ∈ entries, e.1 ∉ params.map Prod.fst) → (entries.map Prod.fst).Nodup →
    entries.foldl (fun ps e => dictInsert ps e.1 e.2) params = params ++ entries := by
  induction entries with
  | nil => intro params _ _; simp
  | cons e rest ih =>
    intro params hfresh hnodup
    rw [List.foldl_cons, dictInsert_fresh params e.1 e.2 (hfresh e (by simp))]
    have hnd : (rest.map Prod.fst).Nodup := by
      simpa using hnodup.of_cons
    have hnotin : e.1 ∉ rest.map Prod.fst := by
      have := hnodup
      simp only [List.map_cons, List.nodup_cons] at this
      exact this.1
    rw [ih (params ++ [(e.1, e.2)]) ?_ hnd]
    · simp
    · intro e2 he2
      simp only [List.map_append, List.mem_append, List.map_cons, List.map_nil,
        List.mem_singleton, not_or]
      refine ⟨hfresh e2 (List.mem_cons_of_mem _ he2), ?_⟩
      intro heq
      exact hnotin (heq ▸ List.mem_map_of_mem Prod.fst he2)

theorem filterParamEntries_fst (f : String) (v : Value) :
    (filterParamEntries f v).map Prod.fst = filterParamNames f v := by
  cases v with
  | scalar s => rfl
  | vlist xs =>
    unfold filterParamEntries filterParamNames
    rw [List.map_fst_zip]
    simp

theorem paramsAfterFilter_fresh (f : String) (v : Value) (params : Params)
    (hfresh : ∀ n ∈ filterParamNames f v, n ∉ params.map Prod.fst)
    (hnodup : (filterParamNames f v).Nodup) :
    paramsAfterFilter f v params = params ++ filterParamEntries f v := by
  cases v with
  | scalar s =>
    unfold paramsAfterFilter filterParamEntries
    exact dictInsert_fresh _ _ _ (hfresh _ (by simp [filterParamNames]))
  | vlist xs =>
    unfold paramsAfterFilter
    dsimp only
    rw [foldl_dictInsert_append _ params ?_ ?_]
    · rfl
    · intro e he
      apply hfresh
      rw [← filterParamEntries_fst]
      exact List.mem_map_of_mem Prod.fst he
    · rw [show ((List.range xs.length).map
          (fun i => filterParamStem f ++ "_" ++ toString i)).zip xs =
          filterParamEntries f (Value.vlist xs) from rfl, filterParamEntries_fst]
      exact hnodup

theorem allFilterParamNames_cons (fv : String × Value) (fs : List (String × Value)) :
    allFilterParamNames (fv :: fs) = filterParamNames fv.1 fv.2 ++ allFilterParamNames fs :=
  rfl

theorem allFilterParamEntries_cons (fv : String × Value) (fs : List (String × Value)) :
    allFilterParamEntries (fv :: fs) =
      filterParamEntries fv.1 fv.2 ++ allFilterParamEntries fs :=
  rfl

theorem paramsAfterAll_fresh (fs : List (String × Value)) : ∀ (params : Params),
    (∀ n ∈ allFilterParamNames fs, n ∉ params.map Prod.fst) →
    (allFilterParamNames fs).Nodup →
    paramsAfterAll fs params = params ++ allFilterParamEntries fs := by
  induction fs with
  | nil => intro params _ _; simp [paramsAfterAll, allFilterParamEntries]
  | cons fv rest ih =>
    intro params hfresh hnodup
    rw [allFilterParamNames_cons] at hfresh hnodup
    rw [List.nodup_append] at hnodup
    unfold paramsAfterAll
    rw [List.foldl_cons]
    rw [paramsAfterFilter_fresh fv.1 fv.2 params
      (fun n hn => hfresh n (List.mem_append_left _ hn)) hnodup.1]
    have hres : List.foldl (fun ps fv => paramsAfterFilter fv.1 fv.2 ps)
        (params ++ filterParamEntries fv.1 fv.2) rest =
        paramsAfterAll rest (params ++ filterParamEntries fv.1 fv.2) := rfl
    rw [hres, ih (params ++ filterParamEntries fv.1 fv.2) ?_ hnodup.2.1]
    · rw [allFilterParamEntries_cons, List.append_assoc]
    · intro n hn
      simp only [List.map_append, List.mem_append, not_or]
      refine ⟨hfresh n (List.mem_append_right _ hn), ?_⟩
      rw [filterParamEntries_fst]
      intro hmem
      exact hnodup.2.2 hmem hn

theorem filter_stem_ne_organism (x : String) : "filter_" ++ x ≠ "organism" := by
  intro h
  have h2 := congrArg String.data h
  rw [String.data_append] at h2
  have h3 : ('f' :: ("ilter_".data ++ x.data)) = ('o' :: "rganism".data) := h2
  injection h3 with h4 _
  exact absurd h4 (by decide)

theorem filterParamName_ne_organism (f : String) (v : Value) (n : String)
    (hn : n ∈ filterParamNames f v) : n ≠ "organism" := by
  cases v with
  | scalar s =>
    simp [filterParamNames, filterParamStem] at hn
    rw [hn]
    exact filter_stem_ne_organism _
  | vlist xs =>
    simp only [filterParamNames, filterParamStem, List.mem_map, List.mem_range] at hn
    obtain ⟨i, _, hn⟩ := hn
    rw [← hn]
    have hassoc : ("filter_" ++ paramSanitize f) ++ "_" ++ toString i =
        "filter_" ++ (paramSanitize f ++ "_" ++ toString i) := by
      apply String.ext
      simp [List.append_assoc]
    rw [hassoc]
    exact filter_stem_ne_organism _

end Querulus

namespace Querulus

theorem buildAggregatedCount_snd (b : Builder) (params : Params) :
    (buildAggregatedCount b params).2 = paramsAfterAll b.filters params := by
  simp [buildAggregatedCount, renderWhereClauses_spec]

theorem buildAggregatedQuerySimple_snd (b : Builder) (params : Params) (limit : Option Int)
    (offset : Int) :
    (buildAggregatedQuerySimple b params limit offset).2 = paramsAfterAll b.filters params := by
  simp [buildAggregatedQuerySimple, renderWhereClauses_spec]

theorem buildAggregatedQueryWithCte_snd (b : Builder) (params : Params) (limit : Option Int)
    (offset : Int) :
    (buildAggregatedQueryWithCte b params limit offset).2 = paramsAfterAll b.filters params := by
  simp [buildAggregatedQueryWithCte, splitFilterClauses_spec]

theorem buildAggregatedCountWithCte_snd (b : Builder) (params : Params) :
    (buildAggregatedCountWithCte b params).2 = paramsAfterAll b.filters params := by
  simp [buildAggregatedCountWithCte, splitFilterClauses_spec]

theorem buildDetailsQuerySimple_snd (b : Builder) (params : Params) (fields : List String)
    (limit : Option Int) (offset : Int) :
    (buildDetailsQuerySimple b params fields limit offset).2 =
      paramsAfterAll b.filters params := by
  simp [buildDetailsQuerySimple, renderWhereClauses_spec]

theorem buildDetailsQueryWithCte_snd (b : Builder) (params : Params) (fields : List String)
    (select_all : Bool) (limit : Option Int) (offset : Int) :
    (buildDetailsQueryWithCte b params fields select_all limit offset).2 =
      paramsAfterAll b.filters params := by
  simp [buildDetailsQueryWithCte, splitFilterClauses_spec]

theorem mem_allFilterParamNames {n : String} :
    ∀ (fs : List (String × Value)), n ∈ allFilterParamNames fs →
      ∃ fv ∈ fs, n ∈ filterParamNames fv.1 fv.2 := by
  intro fs
  induction fs with
  | nil => intro h; simp [allFilterParamNames] at h
  | cons fv rest ih =>
    intro h
    rw [allFilterParamNames_cons] at h
    rcases List.mem_append.1 h with h | h
    · exact ⟨fv, by simp, h⟩
    · obtain ⟨fv2, hm, hn⟩ := ih h
      exact ⟨fv2, List.mem_cons_of_mem _ hm, hn⟩

theorem paramsAfterAll_organism (b : Builder)
    (hnodup : (allFilterParamNames b.filters).Nodup) :
    paramsAfterAll b.filters [("organism", Scalar.str b.organism)] =
      ("organism", Scalar.str b.organism) :: allFilterParamEntries b.filters := by
  rw [paramsAfterAll_fresh b.filters [("organism", Scalar.str b.organism)] ?_ hnodup]
  · simp
  · intro n hn
    obtain ⟨fv, _, hmem⟩ := mem_allFilterParamNames b.filters hn
    simp only [List.map_cons, List.map_nil, List.mem_singleton]
    exact filterParamName_ne_organism fv.1 fv.2 n hmem

/-- Claim C5 (amended): every generated bind-parameter name starts with
filter_ and thus differs from organism; and whenever the generated names are
pairwise distinct, the returned parameter map is exactly the organism binding
followed by each filter's entries in order, so no entry is overwritten. As
stated, distinctness fails when sanitization merges two field names. -/
theorem claim5_param_names (b : Builder) (limit : Option Int) (offset : Int)
    (sf : Option (List String))
    (hnodup : (allFilterParamNames b.filters).Nodup) :
    (∀ (f : String) (v : Value) (n : String), n ∈ filterParamNames f v → n ≠ "organism")
  ∧ (buildAggregatedQuery b limit offset).2 =
      ("organism", Scalar.str b.organism) :: allFilterParamEntries b.filters
  ∧ (buildDetailsQuery b sf limit offset).2 =
      ("organism", Scalar.str b.organism) :: allFilterParamEntries b.filters := by
  refine ⟨filterParamName_ne_organism, ?_, ?_⟩
  · unfold buildAggregatedQuery
    dsimp only
    by_cases hg : b.group_by_fields.isEmpty <;>
      by_cases hc : requiresCte (aggCteCandidateFields b) <;>
        simp [hg, hc, buildAggregatedCount_snd, buildAggregatedCountWithCte_snd,
          buildAggregatedQuerySimple_snd, buildAggregatedQueryWithCte_snd,
          paramsAfterAll_organism b hnodup]
  · unfold buildDetailsQuery
    dsimp only
    by_cases hc : requiresCte (detailsCteCandidateFields b sf ++ ["accession"]) <;>
      simp [hc, buildDetailsQuerySimple_snd, buildDetailsQueryWithCte_snd,
        paramsAfterAll_organism b hnodup]

/-- Witness for claim C5 at a concrete one-filter request. -/
theorem claim5_witness :
    (allFilterParamNames [("country", Value.scalar (Scalar.str "USA"))]).Nodup
  ∧ (buildAggregatedQuery ⟨"o", none, [("country", Value.scalar (Scalar.str "USA"))], [], []⟩
        none 0).2 =
      ("organism", Scalar.str "o")
        :: allFilterParamEntries [("country", Value.scalar (Scalar.str "USA"))] := by
  have hnd : (allFilterParamNames [("country", Value.scalar (Scalar.str "USA"))]).Nodup := by
    decide
  exact ⟨hnd,
    (claim5_param_names ⟨"o", none, [("country", Value.scalar (Scalar.str "USA"))], [], []⟩
      none 0 none hnd).2.1⟩

/-- Counterexample to claim C5 as stated: the distinct filter fields a.b and
a;b generate the same parameter name filter_a_b, and the second filter's value
overwrites the first's in the returned parameter map. -/
theorem claim5_counterexample :
    filterParamNames "a.b" (Value.scalar (Scalar.str "x")) = ["filter_a_b"]
  ∧ filterParamNames "a:b" (Value.scalar (Scalar.str "y")) = ["filter_a_b"]
  ∧ (buildDetailsQuery ⟨"o", none,
      [("a.b", Value.scalar (Scalar.str "x")), ("a:b", Value.scalar (Scalar.str "y"))],
      [], []⟩ (some ["accession"]) none 0).2 =
      [("organism", Scalar.str "o"), ("filter_a_b", Scalar.str "y")] := by
  refine ⟨by decide, by decide, by decide⟩

end Querulus

namespace Querulus

/-- Claim C3: in all three staged query shapes, staging-field filters are
rendered in the outer WHERE against the double-quoted alias of the base field,
while non-staging filters are rendered in the CTE WHERE against the base
field's filter expression; the details scenario with selectedFields
[accession, versionStatus] and filter versionStatus=REVISED yields a staged
query whose outer WHERE compares the alias to a bind parameter. -/
theorem claim3_staged_filter_placement (b : Builder) (params : Params) :
    ((splitFilterClauses b params).1 =
       (b.filters.filter (fun fv => filterUsesCte fv = false)).map
         (fun fv => filterClauseText b false fv.1 fv.2)
   ∧ (splitFilterClauses b params).2.1 =
       (b.filters.filter (fun fv => filterUsesCte fv)).map
         (fun fv => filterClauseText b true fv.1 fv.2))
  ∧ (∀ (f : String) (v : Value), filterClauseText b true f v =
       (renderFilterCondition ("\"" ++ (resolveFilterBase f).1 ++ "\"") v
         (resolveFilterBase f).2 [] (filterParamStem f)).1)
  ∧ (∀ (f : String) (v : Value), filterClauseText b false f v =
       (renderFilterCondition ((fieldDefinition (resolveFilterBase f).1).filter_sql b) v
         (resolveFilterBase f).2 [] (filterParamStem f)).1)
  ∧ ((renderWhereClauses b true (seqComputedFilters b) params).1 =
       (seqComputedFilters b).map (fun fv => filterClauseText b true fv.1 fv.2)
   ∧ (renderWhereClauses b false (seqSimpleFilters b) params).1 =
       (seqSimpleFilters b).map (fun fv => filterClauseText b false fv.1 fv.2))
  ∧ (splitFilterClauses
       ⟨"o", none, [("versionStatus", Value.scalar (Scalar.str "REVISED"))], [], []⟩
       [("organism", Scalar.str "o")] =
      ([], ["\"versionStatus\" = :filter_versionStatus"],
       [("organism", Scalar.str "o"), ("filter_versionStatus", Scalar.str "REVISED")]))
  ∧ hasPre "WITH" (buildDetailsQuery
      ⟨"o", none, [("versionStatus", Value.scalar (Scalar.str "REVISED"))], [], []⟩
      (some ["accession", "versionStatus"]) none 0).1 = true := by
  refine ⟨⟨?_, ?_⟩, fun f v => rfl, fun f v => rfl, ⟨?_, ?_⟩, by decide, by decide⟩
  · rw [splitFilterClauses_spec]
  · rw [splitFilterClauses_spec]
  · rw [renderWhereClauses_spec]
  · rw [renderWhereClauses_spec]

theorem chPre_self_append (p rest : List Char) : chPre p (p ++ rest) = true := by
  induction p with
  | nil => simp [chPre]
  | cons c t ih => simp [chPre, ih]

theorem chPre_head_ne (a b : Char) (as bs : List Char) (h : ¬a = b) :
    chPre (a :: as) (b :: bs) = false := by
  simp [chPre, h]

theorem strEndsWith_append_self (F sfx : String) : strEndsWith (F ++ sfx) sfx = true := by
  unfold strEndsWith
  rw [String.data_append, List.reverse_append]
  exact chPre_self_append _ _

theorem strEndsWith_To_From_false (F : String) : strEndsWith (F ++ "To") "From" = false := by
  unfold strEndsWith
  rw [String.data_append, List.reverse_append]
  rw [show ("To".data.reverse : List Char) = ['o', 'T'] from by decide]
  rw [show ("From".data.reverse : List Char) = ['m', 'o', 'r', 'F'] from by decide]
  simp only [List.cons_append, List.nil_append]
  exact chPre_head_ne _ _ _ _ (by decide)

theorem strDropRight_From (F : String) : strDropRight (F ++ "From") 4 = F := by
  unfold strDropRight
  rw [String.data_append, List.length_append,
    show ("From".data.length : Nat) = 4 from rfl, Nat.add_sub_cancel, List.take_left]

theorem strDropRight_To (F : String) : strDropRight (F ++ "To") 2 = F := by
  unfold strDropRight
  rw [String.data_append, List.length_append,
    show ("To".data.length : Nat) = 2 from rfl, Nat.add_sub_cancel, List.take_left]

theorem resolveFilterBase_From (F : String) :
    resolveFilterBase (F ++ "From") = (F, some ">=") := by
  unfold resolveFilterBase
  simp [strEndsWith_append_self, strDropRight_From]

theorem resolveFilterBase_To (F : String) :
    resolveFilterBase (F ++ "To") = (F, some "<=") := by
  unfold resolveFilterBase
  simp [strEndsWith_To_From_false, strEndsWith_append_self, strDropRight_To]

theorem resolveFilterBase_plain (F : String) (h1 : strEndsWith F "From" = false)
    (h2 : strEndsWith F "To" = false) : resolveFilterBase F = (F, none) := by
  unfold resolveFilterBase
  simp [h1, h2]

end Querulus

namespace Querulus

/-- Claim C6: a From filter and a To filter on the same base field compile to
a lower-bound and an upper-bound clause against the identical base filter
expression; a From filter alone produces only the lower bound; a field name
ending in neither suffix compiles to equality for a scalar and IN for a list. -/
theorem claim6_range_filters (b : Builder) (F : String) (va vb : Value) (params : Params)
    (hva : vshape va = none) (hvb : vshape vb = none) :
    ((renderWhereClauses b false [(F ++ "From", va), (F ++ "To", vb)] params).1 =
       [(fieldDefinition F).filter_sql b ++ " >= :" ++ filterParamStem (F ++ "From"),
        (fieldDefinition F).filter_sql b ++ " <= :" ++ filterParamStem (F ++ "To")])
  ∧ ((renderWhereClauses b false [(F ++ "From", va)] params).1 =
       [(fieldDefinition F).filter_sql b ++ " >= :" ++ filterParamStem (F ++ "From")])
  ∧ (∀ (G : String) (v : Scalar), strEndsWith G "From" = false → strEndsWith G "To" = false →
       (renderWhereClauses b false [(G, Value.scalar v)] params).1 =
         [(fieldDefinition G).filter_sql b ++ " = :" ++ filterParamStem G])
  ∧ (∀ (G : String) (xs : List Scalar), strEndsWith G "From" = false →
       strEndsWith G "To" = false →
       (renderWhereClauses b false [(G, Value.vlist xs)] params).1 =
         [(fieldDefinition G).filter_sql b ++ " IN ("
           ++ String.intercalate ", " ((List.range xs.length).map
                (fun i => ":" ++ filterParamStem G ++ "_" ++ toString i)) ++ ")"]) := by
  obtain ⟨sa, rfl⟩ : ∃ sa, va = Value.scalar sa := by
    cases va with
    | scalar sa => exact ⟨sa, rfl⟩
    | vlist xs => simp [vshape] at hva
  obtain ⟨sb, rfl⟩ : ∃ sb, vb = Value.scalar sb := by
    cases vb with
    | scalar sb => exact ⟨sb, rfl⟩
    | vlist xs => simp [vshape] at hvb
  refine ⟨?_, ?_, ?_, ?_⟩
  · rw [renderWhereClauses_spec]
    simp only [List.map_cons, List.map_nil]
    unfold filterClauseText appendFilterClauseF
    rw [resolveFilterBase_From, resolveFilterBase_To]
    unfold renderFilterCondition
    simp only [List.cons.injEq, and_true]
    constructor <;> (apply String.ext; simp [List.append_assoc])
  · rw [renderWhereClauses_spec]
    simp only [List.map_cons, List.map_nil]
    unfold filterClauseText appendFilterClauseF
    rw [resolveFilterBase_From]
    unfold renderFilterCondition
    simp only [List.cons.injEq, and_true]
    apply String.ext
    simp [List.append_assoc]
  · intro G v h1 h2
    rw [renderWhereClauses_spec]
    simp only [List.map_cons, List.map_nil]
    unfold filterClauseText appendFilterClauseF
    rw [resolveFilterBase_plain G h1 h2]
    unfold renderFilterCondition
    simp only [List.cons.injEq, and_true]
    apply String.ext
    simp [Option.getD, List.append_assoc]
  · intro G xs h1 h2
    rw [renderWhereClauses_spec]
    simp only [List.map_cons, List.map_nil]
    unfold filterClauseText appendFilterClauseF
    rw [resolveFilterBase_plain G h1 h2]
    unfold renderFilterCondition
    simp only [List.cons.injEq, and_true]
    have hmap : (((List.range xs.length).map
        (fun i => filterParamStem G ++ "_" ++ toString i)).map (fun n => ":" ++ n)) =
        (List.range xs.length).map (fun i => ":" ++ filterParamStem G ++ "_" ++ toString i) := by
      rw [List.map_map]
      apply List.map_congr_left
      intro i _
      apply String.ext
      simp [List.append_assoc]
    rw [hmap]
    apply String.ext
    simp [List.append_assoc]

/-- Witness for claim C6 at the lengthFrom / lengthTo scenario. -/
theorem claim6_witness :
    vshape (Value.scalar (Scalar.int 10000)) = none
  ∧ strEndsWith "country" "From" = false
  ∧ (renderWhereClauses ⟨"o", none, [], [], []⟩ false
       [("length" ++ "From", Value.scalar (Scalar.int 10000)),
        ("length" ++ "To", Value.scalar (Scalar.int 11000))] []).1 =
      [(fieldDefinition "length").filter_sql ⟨"o", none, [], [], []⟩ ++ " >= :"
         ++ filterParamStem ("length" ++ "From"),
       (fieldDefinition "length").filter_sql ⟨"o", none, [], [], []⟩ ++ " <= :"
         ++ filterParamStem ("length" ++ "To")]
  ∧ (renderWhereClauses ⟨"o", none, [], [], []⟩ false
       [("country", Value.scalar (Scalar.str "USA"))] []).1 =
      [(fieldDefinition "country").filter_sql ⟨"o", none, [], [], []⟩ ++ " = :"
         ++ filterParamStem "country"] :=
  ⟨rfl, by decide,
   (claim6_range_filters ⟨"o", none, [], [], []⟩ "length" (Value.scalar (Scalar.int 10000))
     (Value.scalar (Scalar.int 11000)) [] rfl rfl).1,
   (claim6_range_filters ⟨"o", none, [], [], []⟩ "length" (Value.scalar (Scalar.int 10000))
     (Value.scalar (Scalar.int 11000)) [] rfl rfl).2.2.1 "country" (Scalar.str "USA")
     (by decide) (by decide)⟩

end Querulus

namespace Querulus

theorem fieldDef_exprs_filters_invariant (f : String) (b : Builder)
    (fs' : List (String × Value)) :
    ((fieldDefinition f).expression_factory { b with filters := fs' } =
       (fieldDefinition f).expression_factory b)
  ∧ ((fieldDefinition f).filter_sql { b with filters := fs' } =
       (fieldDefinition f).filter_sql b)
  ∧ ((fieldDefinition f).group_sql { b with filters := fs' } =
       (fieldDefinition f).group_sql b)
  ∧ ((fieldDefinition f).select_sql { b with filters := fs' } =
       (fieldDefinition f).select_sql b) := by
  unfold fieldDefinition FIELD_DEFINITIONS
  simp only [List.lookup]
  repeat' split
  all_goals exact ⟨rfl, rfl, rfl, rfl⟩

theorem order_sql_filters_invariant (f : String) (b : Builder) (fs' : List (String × Value))
    (ua : Bool) :
    (fieldDefinition f).order_sql { b with filters := fs' } ua =
      (fieldDefinition f).order_sql b ua := by
  cases ua <;>
    (unfold fieldDefinition FIELD_DEFINITIONS
     simp only [List.lookup]
     repeat' split
     all_goals rfl)

theorem buildOrderByClause_filters_invariant (b : Builder) (fs' : List (String × Value))
    (context : String) :
    buildOrderByClause { b with filters := fs' } context = buildOrderByClause b context :=
  rfl

theorem filterBaseFields_shape_eq {fs fs' : List (String × Value)}
    (h : filtersShapeEq fs fs') : filterBaseFields fs' = filterBaseFields fs := by
  unfold filterBaseFields
  induction h with
  | nil => rfl
  | cons hab hrest ih => simp [ih, hab.1]

theorem filterClauseText_shape_eq (b : Builder) (fs'' : List (String × Value)) (ua : Bool)
    (f : String) (v v' : Value) (hv : vshape v = vshape v') :
    filterClauseText { b with filters := fs'' } ua f v' = filterClauseText b ua f v := by
  unfold filterClauseText appendFilterClauseF renderFilterCondition
  cases v with
  | scalar s =>
    cases v' with
    | scalar s' =>
      dsimp only
      rw [(fieldDef_exprs_filters_invariant (resolveFilterBase f).1 b fs'').2.1]
    | vlist xs => simp [vshape] at hv
  | vlist xs =>
    cases v' with
    | scalar s => simp [vshape] at hv
    | vlist xs' =>
      simp only [vshape, Option.some.injEq] at hv
      dsimp only
      rw [hv, (fieldDef_exprs_filters_invariant (resolveFilterBase f).1 b fs'').2.1]

theorem map_filterClauseText_shape_eq (b : Builder) (fs'' : List (String × Value)) (ua : Bool)
    {fs fs' : List (String × Value)} (h : filtersShapeEq fs fs') :
    fs'.map (fun fv => filterClauseText { b with filters := fs'' } ua fv.1 fv.2) =
      fs.map (fun fv => filterClauseText b ua fv.1 fv.2) := by
  induction h with
  | nil => rfl
  | @cons a b2 l1 l2 hab hrest ih =>
    simp only [List.map_cons, ih]
    rw [show b2.1 = a.1 from (hab.1).symm]
    rw [filterClauseText_shape_eq b fs'' ua a.1 a.2 b2.2 hab.2]

theorem map_filter_clauseText_shape_eq (b : Builder) (fs'' : List (String × Value)) (ua : Bool)
    (g : (String × Value) → Bool) (hg : ∀ f v v', g (f, v) = g (f, v'))
    {fs fs' : List (String × Value)} (h : filtersShapeEq fs fs') :
    (fs'.filter g).map (fun fv => filterClauseText { b with filters := fs'' } ua fv.1 fv.2) =
      (fs.filter g).map (fun fv => filterClauseText b ua fv.1 fv.2) := by
  induction h with
  | nil => rfl
  | @cons a b2 l1 l2 hab hrest ih =>
    obtain ⟨a1, av⟩ := a
    obtain ⟨b1, bv⟩ := b2
    have hfst : a1 = b1 := hab.1
    subst hfst
    have hguse : g (a1, bv) = g (a1, av) := (hg a1 bv av).trans (hg a1 av av).symm
    by_cases hga : g (a1, av)
    · have hgb : g (a1, bv) = true := by rw [hguse]; exact hga
      simp [List.filter_cons, hgb, hga, ih,
        filterClauseText_shape_eq b fs'' ua a1 av bv hab.2]
    · have hgb : g (a1, bv) = false := by rw [hguse]; simpa using hga
      simp [List.filter_cons, hgb, hga, ih]

end Querulus

namespace Querulus

theorem map_select_sql_invariant (b : Builder) (fs' : List (String × Value))
    (fields : List String) :
    fields.map (fun f => (fieldDefinition f).select_sql { b with filters := fs' }) =
      fields.map (fun f => (fieldDefinition f).select_sql b) := by
  apply List.map_congr_left
  intro f _
  exact (fieldDef_exprs_filters_invariant f b fs').2.2.2

theorem map_group_sql_invariant (b : Builder) (fs' : List (String × Value))
    (fields : List String) :
    fields.map (fun f => (fieldDefinition f).group_sql { b with filters := fs' }) =
      fields.map (fun f => (fieldDefinition f).group_sql b) := by
  apply List.map_congr_left
  intro f _
  exact (fieldDef_exprs_filters_invariant f b fs').2.2.1

theorem buildAggregatedCount_sql_shape_eq (b : Builder) (fs' : List (String × Value))
    (params : Params) (h : filtersShapeEq b.filters fs') :
    (buildAggregatedCount { b with filters := fs' } params).1 =
      (buildAggregatedCount b params).1 := by
  unfold buildAggregatedCount
  dsimp only
  rw [renderWhereClauses_spec, renderWhereClauses_spec]
  dsimp only
  rw [filterBaseFields_shape_eq h, map_filterClauseText_shape_eq b fs' false h]

theorem buildAggregatedQuerySimple_sql_shape_eq (b : Builder) (fs' : List (String × Value))
    (params : Params) (limit : Option Int) (offset : Int)
    (h : filtersShapeEq b.filters fs') :
    (buildAggregatedQuerySimple { b with filters := fs' } params limit offset).1 =
      (buildAggregatedQuerySimple b params limit offset).1 := by
  unfold buildAggregatedQuerySimple
  dsimp only
  rw [renderWhereClauses_spec, renderWhereClauses_spec]
  dsimp only
  rw [filterBaseFields_shape_eq h, map_filterClauseText_shape_eq b fs' false h,
    map_select_sql_invariant, map_group_sql_invariant,
    buildOrderByClause_filters_invariant]

theorem buildAggregatedQueryWithCte_sql_shape_eq (b : Builder) (fs' : List (String × Value))
    (params : Params) (limit : Option Int) (offset : Int)
    (h : filtersShapeEq b.filters fs') :
    (buildAggregatedQueryWithCte { b with filters := fs' } params limit offset).1 =
      (buildAggregatedQueryWithCte b params limit offset).1 := by
  unfold buildAggregatedQueryWithCte
  dsimp only
  rw [splitFilterClauses_spec, splitFilterClauses_spec]
  dsimp only
  rw [filterBaseFields_shape_eq h,
    map_filter_clauseText_shape_eq b fs' false (fun fv => filterUsesCte fv = false)
      (fun f v v' => by unfold filterUsesCte; rfl) h,
    map_filter_clauseText_shape_eq b fs' true (fun fv => filterUsesCte fv)
      (fun f v v' => by unfold filterUsesCte; rfl) h,
    map_select_sql_invariant, buildOrderByClause_filters_invariant]

theorem buildAggregatedCountWithCte_sql_shape_eq (b : Builder) (fs' : List (String × Value))
    (params : Params) (h : filtersShapeEq b.filters fs') :
    (buildAggregatedCountWithCte { b with filters := fs' } params).1 =
      (buildAggregatedCountWithCte b params).1 := by
  unfold buildAggregatedCountWithCte
  dsimp only
  rw [splitFilterClauses_spec, splitFilterClauses_spec]
  dsimp only
  rw [filterBaseFields_shape_eq h,
    map_filter_clauseText_shape_eq b fs' false (fun fv => filterUsesCte fv = false)
      (fun f v v' => by unfold filterUsesCte; rfl) h,
    map_filter_clauseText_shape_eq b fs' true (fun fv => filterUsesCte fv)
      (fun f v v' => by unfold filterUsesCte; rfl) h,
    map_select_sql_invariant]

theorem aggCteCandidateFields_shape_eq (b : Builder) (fs' : List (String × Value))
    (h : filtersShapeEq b.filters fs') :
    aggCteCandidateFields { b with filters := fs' } = aggCteCandidateFields b := by
  unfold aggCteCandidateFields
  dsimp only
  rw [filterBaseFields_shape_eq h]

theorem buildAggregatedQuery_sql_shape_eq (b : Builder) (fs' : List (String × Value))
    (limit : Option Int) (offset : Int) (h : filtersShapeEq b.filters fs') :
    (buildAggregatedQuery { b with filters := fs' } limit offset).1 =
      (buildAggregatedQuery b limit offset).1 := by
  unfold buildAggregatedQuery
  dsimp only
  rw [aggCteCandidateFields_shape_eq b fs' h]
  by_cases hg : b.group_by_fields.isEmpty <;>
    by_cases hc : requiresCte (aggCteCandidateFields b) <;>
      simp [hg, hc, buildAggregatedCount_sql_shape_eq b fs' _ h,
        buildAggregatedCountWithCte_sql_shape_eq b fs' _ h,
        buildAggregatedQuerySimple_sql_shape_eq b fs' _ limit offset h,
        buildAggregatedQueryWithCte_sql_shape_eq b fs' _ limit offset h]

theorem detailsEffectiveFields_filters_invariant (b : Builder) (fs' : List (String × Value))
    (sf : Option (List String)) :
    detailsEffectiveFields { b with filters := fs' } sf = detailsEffectiveFields b sf :=
  rfl

theorem detailsCteCandidateFields_shape_eq (b : Builder) (fs' : List (String × Value))
    (sf : Option (List String)) (h : filtersShapeEq b.filters fs') :
    detailsCteCandidateFields { b with filters := fs' } sf =
      detailsCteCandidateFields b sf := by
  unfold detailsCteCandidateFields
  rw [detailsEffectiveFields_filters_invariant]
  dsimp only
  rw [filterBaseFields_shape_eq h]

theorem buildDetailsQuerySimple_sql_shape_eq (b : Builder) (fs' : List (String × Value))
    (params : Params) (fields : List String) (limit : Option Int) (offset : Int)
    (h : filtersShapeEq b.filters fs') :
    (buildDetailsQuerySimple { b with filters := fs' } params fields limit offset).1 =
      (buildDetailsQuerySimple b params fields limit offset).1 := by
  unfold buildDetailsQuerySimple
  dsimp only
  rw [renderWhereClauses_spec, renderWhereClauses_spec]
  dsimp only
  rw [filterBaseFields_shape_eq h, map_filterClauseText_shape_eq b fs' false h,
    map_select_sql_invariant, buildOrderByClause_filters_invariant]

theorem buildDetailsQueryWithCte_sql_shape_eq (b : Builder) (fs' : List (String × Value))
    (params : Params) (fields : List String) (select_all : Bool) (limit : Option Int)
    (offset : Int) (h : filtersShapeEq b.filters fs') :
    (buildDetailsQueryWithCte { b with filters := fs' } params fields select_all limit
        offset).1 =
      (buildDetailsQueryWithCte b params fields select_all limit offset).1 := by
  unfold buildDetailsQueryWithCte
  dsimp only
  rw [splitFilterClauses_spec, splitFilterClauses_spec]
  dsimp only
  rw [filterBaseFields_shape_eq h,
    map_filter_clauseText_shape_eq b fs' false (fun fv => filterUsesCte fv = false)
      (fun f v v' => by unfold filterUsesCte; rfl) h,
    map_filter_clauseText_shape_eq b fs' true (fun fv => filterUsesCte fv)
      (fun f v v' => by unfold filterUsesCte; rfl) h,
    map_select_sql_invariant, buildOrderByClause_filters_invariant]

theorem buildDetailsQuery_sql_shape_eq (b : Builder) (fs' : List (String × Value))
    (sf : Option (List String)) (limit : Option Int) (offset : Int)
    (h : filtersShapeEq b.filters fs') :
    (buildDetailsQuery { b with filters := fs' } sf limit offset).1 =
      (buildDetailsQuery b sf limit offset).1 := by
  unfold buildDetailsQuery
  dsimp only
  rw [detailsCteCandidateFields_shape_eq b fs' sf h, detailsEffectiveFields_filters_invariant]
  by_cases hc : requiresCte (detailsCteCandidateFields b sf ++ ["accession"]) <;>
    simp [hc, buildDetailsQuerySimple_sql_shape_eq b fs' _ _ limit offset h,
      buildDetailsQueryWithCte_sql_shape_eq b fs' _ _ _ limit offset h]

end Querulus

namespace Querulus

theorem mem_allFilterParamEntries {e : String × Scalar} :
    ∀ (fs : List (String × Value)) (fv : String × Value), fv ∈ fs →
      e ∈ filterParamEntries fv.1 fv.2 → e ∈ allFilterParamEntries fs := by
  intro fs
  induction fs with
  | nil => intro fv h _; simp at h
  | cons g rest ih =>
    intro fv hfv he
    rw [allFilterParamEntries_cons]
    rcases List.mem_cons.1 hfv with h | h
    · subst h
      exact List.mem_append_left _ he
    · exact List.mem_append_right _ (ih fv h he)

theorem buildAggregatedQuery_params_char (b : Builder) (limit : Option Int) (offset : Int)
    (hnodup : (allFilterParamNames b.filters).Nodup) :
    (buildAggregatedQuery b limit offset).2 =
      ("organism", Scalar.str b.organism) :: allFilterParamEntries b.filters := by
  unfold buildAggregatedQuery
  dsimp only
  by_cases hg : b.group_by_fields.isEmpty <;>
    by_cases hc : requiresCte (aggCteCandidateFields b) <;>
      simp [hg, hc, buildAggregatedCount_snd, buildAggregatedCountWithCte_snd,
        buildAggregatedQuerySimple_snd, buildAggregatedQueryWithCte_snd,
        paramsAfterAll_organism b hnodup]

theorem buildDetailsQuery_params_char (b : Builder) (sf : Option (List String))
    (limit : Option Int) (offset : Int)
    (hnodup : (allFilterParamNames b.filters).Nodup) :
    (buildDetailsQuery b sf limit offset).2 =
      ("organism", Scalar.str b.organism) :: allFilterParamEntries b.filters := by
  unfold buildDetailsQuery
  dsimp only
  by_cases hc : requiresCte (detailsCteCandidateFields b sf ++ ["accession"]) <;>
    simp [hc, buildDetailsQuerySimple_snd, buildDetailsQueryWithCte_snd,
      paramsAfterAll_organism b hnodup]

/-- Claim C2 (amended): the SQL text depends on filter values only through
their field names and list lengths (so no value is ever interpolated into the
SQL); a scalar filter renders as one bind parameter and an N-element list
filter as N indexed IN parameters; and, provided the generated parameter names
are pairwise distinct, every filter value is present in the returned parameter
map. As stated, the claim fails when sanitization merges two field names. -/
theorem claim2_parameterized_filters (b : Builder) (fs' : List (String × Value))
    (limit : Option Int) (offset : Int) (sf : Option (List String))
    (hsh : filtersShapeEq b.filters fs')
    (hnodup : (allFilterParamNames b.filters).Nodup) :
    ((buildAggregatedQuery { b with filters := fs' } limit offset).1 =
        (buildAggregatedQuery b limit offset).1
     ∧ (buildDetailsQuery { b with filters := fs' } sf limit offset).1 =
        (buildDetailsQuery b sf limit offset).1)
  ∧ (∀ (expression : String) (op : Option String) (stem : String) (params : Params)
        (v : Scalar),
       renderFilterCondition expression (Value.scalar v) op params stem =
         (expression ++ " " ++ op.getD "=" ++ " :" ++ stem, dictInsert params stem v))
  ∧ (∀ (expression : String) (op : Option String) (stem : String) (params : Params)
        (xs : List Scalar),
       (renderFilterCondition expression (Value.vlist xs) op params stem).1 =
         expression ++ " IN (" ++ String.intercalate ", "
           (((List.range xs.length).map (fun i => stem ++ "_" ++ toString i)).map
             (fun n => ":" ++ n)) ++ ")")
  ∧ (∀ fv ∈ b.filters, ∀ e ∈ filterParamEntries fv.1 fv.2,
       e ∈ (buildAggregatedQuery b limit offset).2
     ∧ e ∈ (buildDetailsQuery b sf limit offset).2) := by
  refine ⟨⟨buildAggregatedQuery_sql_shape_eq b fs' limit offset hsh,
      buildDetailsQuery_sql_shape_eq b fs' sf limit offset hsh⟩,
    fun expression op stem params v => rfl,
    fun expression op stem params xs => rfl,
    fun fv hfv e he => ?_⟩
  rw [buildAggregatedQuery_params_char b limit offset hnodup,
    buildDetailsQuery_params_char b sf limit offset hnodup]
  exact ⟨List.mem_cons_of_mem _ (mem_allFilterParamEntries b.filters fv hfv he),
    List.mem_cons_of_mem _ (mem_allFilterParamEntries b.filters fv hfv he)⟩

/-- Witness for claim C2 at a concrete one-filter request. -/
theorem claim2_witness :
    filtersShapeEq [("country", Value.scalar (Scalar.str "USA"))]
      [("country", Value.scalar (Scalar.str "FRA"))]
  ∧ (allFilterParamNames [("country", Value.scalar (Scalar.str "USA"))]).Nodup
  ∧ (buildAggregatedQuery
      ⟨"o", none, [("country", Value.scalar (Scalar.str "FRA"))], [], []⟩ none 0).1 =
    (buildAggregatedQuery
      ⟨"o", none, [("country", Value.scalar (Scalar.str "USA"))], [], []⟩ none 0).1 := by
  have hsh : filtersShapeEq [("country", Value.scalar (Scalar.str "USA"))]
      [("country", Value.scalar (Scalar.str "FRA"))] :=
    List.Forall₂.cons ⟨rfl, rfl⟩ List.Forall₂.nil
  have hnd : (allFilterParamNames [("country", Value.scalar (Scalar.str "USA"))]).Nodup := by
    decide
  exact ⟨hsh, hnd,
    (claim2_parameterized_filters
      ⟨"o", none, [("country", Value.scalar (Scalar.str "USA"))], [], []⟩
      [("country", Value.scalar (Scalar.str "FRA"))] none 0 none hsh hnd).1.1⟩

/-- Counterexample to claim C2 as stated: with filters a.b and a;b both
sanitizing to filter_a_b, the first filter value v1 is overwritten and absent
from the returned parameter map. -/
theorem claim2_counterexample :
    (buildAggregatedQuery ⟨"o", none,
      [("a.b", Value.scalar (Scalar.str "v1")), ("a;b", Value.scalar (Scalar.str "v2"))],
      [], []⟩ none 0).2 =
      [("organism", Scalar.str "o"), ("filter_a_b", Scalar.str "v2")]
  ∧ Scalar.str "v1" ∉ ((buildAggregatedQuery ⟨"o", none,
      [("a.b", Value.scalar (Scalar.str "v1")), ("a;b", Value.scalar (Scalar.str "v2"))],
      [], []⟩ none 0).2).map Prod.snd :=
  ⟨by decide, by decide⟩

end Querulus
